import Mathlib

/-!
Verification of the Tokamak DAO v2 governance contracts.

Shallow embedding of the Solidity sources: addresses are `Nat` (0 is the zero
address), `uint256` values are `Nat` (the claims under study never reach
2^256, so modular wraparound is not modelled; subtractions that Solidity 0.8
would revert on are guarded explicitly), Solidity `mapping`s are total
functions with the zero value as default, reverts are `Except.error` with the
contract's custom error, and `block.timestamp` / `block.number` are explicit
`now` / `blockNum` arguments.

Layout: all definitions first, then all theorems.
-/

namespace TokamakDAO

/-- Write one key of a Solidity `mapping` modelled as a total function. -/
def upd {κ α : Type} [DecidableEq κ] (f : κ → α) (k : κ) (v : α) : κ → α :=
  Function.update f k v

/-- Write one key of a nested Solidity `mapping`. -/
def upd2 {α : Type} (f : Nat → Nat → α) (k1 k2 : Nat) (v : α) : Nat → Nat → α :=
  upd f k1 (upd (f k1) k2 v)

/-! ## vTON token (`vTON.sol`)

Embedding of the `vTON` contract: an ERC20 with an authorized-minter set and
an emission ratio applied at mint time.  Only the state the governance claims
touch is carried (balances, supply, ratio, minters, owner). -/

namespace VTON

/-- Custom errors of `vTON.sol` (plus the `Ownable` authorization failure). -/
inductive Error
  | NotMinter
  | InvalidEmissionRatio
  | ZeroAddress
  | NotOwner
deriving DecidableEq

/-- Events emitted by `vTON.sol`. -/
inductive Event
  | Minted (toAddr amount : Nat)
  | EmissionRatioUpdated (oldRatio newRatio : Nat)
  | MinterUpdated (minter : Nat) (allowed : Bool)
deriving DecidableEq

/-- Contract state of `vTON.sol`. -/
structure State where
  owner : Nat
  emissionRatio : Nat
  minters : Nat → Bool
  balances : Nat → Nat
  totalSupply : Nat

/-- `MAX_EMISSION_RATIO = 1e18` (100%). -/
def maxEmissionRatio : Nat := 10 ^ 18

/-- `vTON.mint(to, amount)` called by `sender`.  Scales `amount` by the
emission ratio with truncating division; a zero adjusted amount is a silent
no-op (success, no state change, no event). -/
def mint (s : State) (sender toAddr amount : Nat) : Except Error (State × List Event) :=
  if s.minters sender = false then .error .NotMinter
  else if toAddr = 0 then .error .ZeroAddress
  else
    let adjustedAmount := amount * s.emissionRatio / maxEmissionRatio
    if adjustedAmount = 0 then .ok (s, [])
    else
      .ok ({ s with
               balances := upd s.balances toAddr (s.balances toAddr + adjustedAmount),
               totalSupply := s.totalSupply + adjustedAmount },
           [Event.Minted toAddr adjustedAmount])

/-- `vTON.setEmissionRatio(ratio)` called by `sender` (owner-only). -/
def setEmissionRatio (s : State) (sender ratio : Nat) : Except Error (State × List Event) :=
  if sender ≠ s.owner then .error .NotOwner
  else if ratio > maxEmissionRatio then .error .InvalidEmissionRatio
  else .ok ({ s with emissionRatio := ratio },
            [Event.EmissionRatioUpdated s.emissionRatio ratio])

end VTON

/-! ## Timelock (`Timelock.sol`)

A transaction is identified in the source by `keccak256(abi.encode(target,
value, data, eta))`; the hash is modelled as the tuple itself (keccak is
treated as collision-free), with `data` a list of bytes. -/

namespace Timelock

/-- Custom errors of `Timelock.sol`. -/
inductive Error
  | NotAdmin
  | NotGovernor
  | NotSecurityCouncil
  | TransactionNotQueued
  | TransactionAlreadyQueued
  | TransactionNotReady
  | TransactionExpired
  | TransactionAlreadyCanceled
  | ExecutionFailed
  | ZeroAddress
  | InvalidDelay
deriving DecidableEq

/-- The (target, value, data, eta) tuple standing for the transaction hash. -/
abbrev TxTuple : Type := Nat × Nat × List Nat × Nat

/-- `GRACE_PERIOD = 14 days` (in seconds). -/
def GRACE_PERIOD : Nat := 14 * 86400

/-- `MINIMUM_DELAY = 1 hours`. -/
def MINIMUM_DELAY : Nat := 3600

/-- `MAXIMUM_DELAY = 30 days`. -/
def MAXIMUM_DELAY : Nat := 30 * 86400

/-- Contract state of `Timelock.sol`. -/
structure State where
  admin : Nat
  governor : Nat
  securityCouncil : Nat
  delay : Nat
  queuedTransactions : TxTuple → Bool
  canceledTransactions : TxTuple → Bool
  transactionEta : TxTuple → Nat

/-- `Timelock.queueTransaction(target, value, data)` called by `sender` at
time `now` (governor-only). -/
def queueTransaction (s : State) (sender target value : Nat) (data : List Nat)
    (now : Nat) : Except Error (State × TxTuple) :=
  if sender ≠ s.governor then .error .NotGovernor
  else if s.queuedTransactions (target, value, data, now + s.delay) = true then
    .error .TransactionAlreadyQueued
  else
    .ok ({ s with
             queuedTransactions :=
               upd s.queuedTransactions (target, value, data, now + s.delay) true,
             transactionEta :=
               upd s.transactionEta (target, value, data, now + s.delay) (now + s.delay) },
         (target, value, data, now + s.delay))

/-- `Timelock.executeTransaction(target, value, data, eta)` called by `sender`
at time `now`; `callOk` is the outcome of the external call performed on the
target (the call itself is outside the model). -/
def executeTransaction (s : State) (sender target value : Nat) (data : List Nat)
    (eta now : Nat) (callOk : Bool) : Except Error State :=
  if sender ≠ s.governor then .error .NotGovernor
  else if s.queuedTransactions (target, value, data, eta) = false then
    .error .TransactionNotQueued
  else if s.canceledTransactions (target, value, data, eta) = true then
    .error .TransactionAlreadyCanceled
  else if now < eta then .error .TransactionNotReady
  else if now > eta + GRACE_PERIOD then .error .TransactionExpired
  else if callOk = false then .error .ExecutionFailed
  else
    .ok { s with
            queuedTransactions := upd s.queuedTransactions (target, value, data, eta) false }

/-- `Timelock.cancelTransaction(target, value, data, eta)` called by `sender`
(security-council-only). -/
def cancelTransaction (s : State) (sender target value : Nat) (data : List Nat)
    (eta : Nat) : Except Error State :=
  if sender ≠ s.securityCouncil then .error .NotSecurityCouncil
  else if s.queuedTransactions (target, value, data, eta) = false then
    .error .TransactionNotQueued
  else
    .ok { s with
            canceledTransactions := upd s.canceledTransactions (target, value, data, eta) true }

end Timelock

/-! ## SecurityCouncil (`SecurityCouncil.sol`)

M-of-N emergency multi-sig.  `bytes` payloads are lists of bytes, reason
strings are `String`.  The external call performed by `executeEmergencyAction`
on non-pause actions is abstracted by a `callOk` flag; the `Pausable` state of
the council itself is carried in the `paused` field. -/

namespace SecurityCouncil

/-- Custom errors of `SecurityCouncil.sol`; `IndexOutOfBounds` models the
Solidity array-bounds panic, `EnforcedPause` / `ExpectedPause` the OpenZeppelin
`Pausable` reverts of `_pause` / `_unpause`. -/
inductive Error
  | NotMember
  | AlreadyMember
  | NotEnoughMembers
  | InvalidThreshold
  | ActionNotFound
  | ActionAlreadyExecuted
  | ActionNotApproved
  | AlreadyApproved
  | ZeroAddress
  | CannotRemoveLastFoundationMember
  | OnlyDAOCanModifyMembers
  | ExecutionFailed
  | IndexOutOfBounds
  | EnforcedPause
  | ExpectedPause
deriving DecidableEq

/-- `ISecurityCouncil.ActionType`. -/
inductive ActionType
  | CancelProposal
  | EmergencyUpgrade
  | PauseProtocol
  | UnpauseProtocol
  | Custom
deriving DecidableEq

/-- `ISecurityCouncil.Member`. -/
structure Member where
  account : Nat
  isFoundation : Bool
  addedAt : Nat
deriving DecidableEq

/-- `ISecurityCouncil.EmergencyAction`. -/
structure EmergencyAction where
  id : Nat
  actionType : ActionType
  target : Nat
  data : List Nat
  reason : String
  createdAt : Nat
  executedAt : Nat
  executed : Bool
  approvers : List Nat
deriving DecidableEq

/-- The zero-initialized action record (Solidity mapping default). -/
def EmergencyAction.empty : EmergencyAction :=
  { id := 0, actionType := .CancelProposal, target := 0, data := [], reason := ""
    createdAt := 0, executedAt := 0, executed := false, approvers := [] }

/-- `MIN_MEMBERS = 2`. -/
def MIN_MEMBERS : Nat := 2

/-- Contract state of `SecurityCouncil.sol`. -/
structure State where
  daoGovernor : Nat
  timelockAddress : Nat
  protocolTarget : Nat
  threshold : Nat
  actionCount : Nat
  members : List Member
  isMemberMap : Nat → Bool
  memberIndex : Nat → Nat
  actions : Nat → EmergencyAction
  pendingActionIds : List Nat
  approvals : Nat → Nat → Bool
  paused : Bool

/-- Internal `_addMember`. -/
def addMemberInternal (s : State) (member : Nat) (isFoundation : Bool) (now : Nat) : State :=
  { s with
      memberIndex := upd s.memberIndex member s.members.length,
      members := s.members ++ [{ account := member, isFoundation := isFoundation, addedAt := now }],
      isMemberMap := upd s.isMemberMap member true }

/-- `foundationMemberCount()`. -/
def foundationMemberCount (s : State) : Nat :=
  (s.members.filter (fun m => m.isFoundation)).length

/-- Internal `_removeMember` (swap-with-last then pop). -/
def removeMemberInternal (s : State) (member : Nat) : State :=
  let index := s.memberIndex member
  let lastIndex := s.members.length - 1
  let lastMember := s.members.getD lastIndex { account := 0, isFoundation := false, addedAt := 0 }
  let members1 := if index ≠ lastIndex then s.members.set index lastMember else s.members
  let memberIndex1 :=
    if index ≠ lastIndex then upd s.memberIndex lastMember.account index else s.memberIndex
  { s with
      members := members1.dropLast,
      memberIndex := upd memberIndex1 member 0,
      isMemberMap := upd s.isMemberMap member false }

/-- The council constructor: one foundation member, a list of external
members, initial threshold `ceil(2/3 * memberCount)`. -/
def deploy (foundationMember : Nat) (extMembers : List Nat)
    (daoGovernor timelock protocolTarget now : Nat) : Except Error State :=
  if foundationMember = 0 ∨ daoGovernor = 0 ∨ timelock = 0 then .error .ZeroAddress
  else if extMembers.any (fun m => m = 0) then .error .ZeroAddress
  else
    let s0 : State :=
      { daoGovernor := daoGovernor, timelockAddress := timelock,
        protocolTarget := protocolTarget, threshold := 0, actionCount := 0,
        members := [], isMemberMap := fun _ => false, memberIndex := fun _ => 0,
        actions := fun _ => EmergencyAction.empty, pendingActionIds := [],
        approvals := fun _ _ => false, paused := false }
    let s1 := addMemberInternal s0 foundationMember true now
    let s2 := extMembers.foldl (fun s m => addMemberInternal s m false now) s1
    .ok { s2 with threshold := (s2.members.length * 2 + 2) / 3 }

/-- `addMember(member, isFoundation)` called by `sender` (DAO-only). -/
def addMember (s : State) (sender member : Nat) (isFoundation : Bool) (now : Nat) :
    Except Error State :=
  if sender ≠ s.daoGovernor then .error .OnlyDAOCanModifyMembers
  else if member = 0 then .error .ZeroAddress
  else if s.isMemberMap member = true then .error .AlreadyMember
  else .ok (addMemberInternal s member isFoundation now)

/-- `removeMember(member)` called by `sender` (DAO-only); clamps the threshold
down to the shrunken member count when needed. -/
def removeMember (s : State) (sender member : Nat) : Except Error State :=
  if sender ≠ s.daoGovernor then .error .OnlyDAOCanModifyMembers
  else if s.isMemberMap member = false then .error .NotMember
  else if s.members.length ≤ MIN_MEMBERS then .error .NotEnoughMembers
  else if hidx : s.members.length ≤ s.memberIndex member then .error .IndexOutOfBounds
  else if (s.members.get ⟨s.memberIndex member, by omega⟩).isFoundation = true ∧
      foundationMemberCount s = 1 then
    .error .CannotRemoveLastFoundationMember
  else if (removeMemberInternal s member).members.length <
      (removeMemberInternal s member).threshold then
    .ok { removeMemberInternal s member with
            threshold := (removeMemberInternal s member).members.length }
  else .ok (removeMemberInternal s member)

/-- `setThreshold(newThreshold)` called by `sender` (DAO-only). -/
def setThreshold (s : State) (sender newThreshold : Nat) : Except Error State :=
  if sender ≠ s.daoGovernor then .error .OnlyDAOCanModifyMembers
  else if newThreshold = 0 ∨ s.members.length < newThreshold then .error .InvalidThreshold
  else .ok { s with threshold := newThreshold }

/-- `proposeEmergencyAction(actionType, target, data, reason)` called by
`sender` at time `now` (member-only); the proposer auto-approves. -/
def proposeEmergencyAction (s : State) (sender : Nat) (actionType : ActionType)
    (target : Nat) (data : List Nat) (reason : String) (now : Nat) :
    Except Error (State × Nat) :=
  if s.isMemberMap sender = false then .error .NotMember
  else
    .ok ({ s with
             actionCount := s.actionCount + 1,
             actions := upd s.actions s.actionCount
               { id := s.actionCount, actionType := actionType, target := target,
                 data := data, reason := reason, createdAt := now, executedAt := 0,
                 executed := false, approvers := [sender] },
             approvals := upd2 s.approvals s.actionCount sender true,
             pendingActionIds := s.pendingActionIds ++ [s.actionCount] },
          s.actionCount)

/-- `approveEmergencyAction(actionId)` called by `sender` (member-only). -/
def approveEmergencyAction (s : State) (sender actionId : Nat) : Except Error State :=
  if s.isMemberMap sender = false then .error .NotMember
  else if (s.actions actionId).createdAt = 0 then .error .ActionNotFound
  else if (s.actions actionId).executed = true then .error .ActionAlreadyExecuted
  else if s.approvals actionId sender = true then .error .AlreadyApproved
  else
    .ok { s with
            approvals := upd2 s.approvals actionId sender true,
            actions := upd s.actions actionId
              { s.actions actionId with
                  approvers := (s.actions actionId).approvers ++ [sender] } }

/-- Internal `_removePendingAction` (swap first occurrence with last, pop). -/
def removePendingInternal (ids : List Nat) (actionId : Nat) : List Nat :=
  if actionId ∈ ids then
    (ids.set (ids.indexOf actionId) (ids.getD (ids.length - 1) 0)).dropLast
  else ids

/-- `executeEmergencyAction(actionId)` called by `sender` at time `now`
(member-only); `callOk` abstracts the external call for non-pause actions. -/
def executeEmergencyAction (s : State) (sender actionId now : Nat) (callOk : Bool) :
    Except Error State :=
  if s.isMemberMap sender = false then .error .NotMember
  else if (s.actions actionId).createdAt = 0 then .error .ActionNotFound
  else if (s.actions actionId).executed = true then .error .ActionAlreadyExecuted
  else if (s.actions actionId).approvers.length < s.threshold then .error .ActionNotApproved
  else if (s.actions actionId).actionType = ActionType.PauseProtocol then
    if s.paused = true then .error .EnforcedPause
    else
      .ok { s with
              actions := upd s.actions actionId
                { s.actions actionId with executed := true, executedAt := now },
              pendingActionIds := removePendingInternal s.pendingActionIds actionId,
              paused := true }
  else if (s.actions actionId).actionType = ActionType.UnpauseProtocol then
    if s.paused = false then .error .ExpectedPause
    else
      .ok { s with
              actions := upd s.actions actionId
                { s.actions actionId with executed := true, executedAt := now },
              pendingActionIds := removePendingInternal s.pendingActionIds actionId,
              paused := false }
  else if callOk = false then .error .ExecutionFailed
  else
    .ok { s with
            actions := upd s.actions actionId
              { s.actions actionId with executed := true, executedAt := now },
            pendingActionIds := removePendingInternal s.pendingActionIds actionId }

/-- `cancelEmergencyAction(actionId)` called by `sender` (member-only):
removes from pending and marks executed to prevent future use. -/
def cancelEmergencyAction (s : State) (sender actionId : Nat) : Except Error State :=
  if s.isMemberMap sender = false then .error .NotMember
  else if (s.actions actionId).createdAt = 0 then .error .ActionNotFound
  else if (s.actions actionId).executed = true then .error .ActionAlreadyExecuted
  else
    .ok { s with
            pendingActionIds := removePendingInternal s.pendingActionIds actionId,
            actions := upd s.actions actionId { s.actions actionId with executed := true } }

/-- `setDAOGovernor(newGovernor)` (DAO-only). -/
def setDAOGovernor (s : State) (sender newGovernor : Nat) : Except Error State :=
  if sender ≠ s.daoGovernor then .error .OnlyDAOCanModifyMembers
  else if newGovernor = 0 then .error .ZeroAddress
  else .ok { s with daoGovernor := newGovernor }

/-- `setProtocolTarget(newTarget)` (DAO-only). -/
def setProtocolTarget (s : State) (sender newTarget : Nat) : Except Error State :=
  if sender ≠ s.daoGovernor then .error .OnlyDAOCanModifyMembers
  else if newTarget = 0 then .error .ZeroAddress
  else .ok { s with protocolTarget := newTarget }

/-- The reason string of the `cancelProposal` convenience wrapper. -/
def cancelProposalReason : String := "Cancel malicious proposal"

/-- The reason string of the `unpauseProtocol` convenience wrapper. -/
def unpauseProtocolReason : String := "Unpause protocol"

/-- `cancelProposal(proposalId)` convenience wrapper: a pre-filled
emergency-action proposal targeting the timelock. -/
def cancelProposal (s : State) (sender proposalId now : Nat) : Except Error (State × Nat) :=
  proposeEmergencyAction s sender ActionType.CancelProposal s.timelockAddress
    [proposalId] cancelProposalReason now

/-- `pauseProtocol(reason)` convenience wrapper. -/
def pauseProtocol (s : State) (sender : Nat) (reason : String) (now : Nat) :
    Except Error (State × Nat) :=
  proposeEmergencyAction s sender ActionType.PauseProtocol s.protocolTarget [] reason now

/-- `unpauseProtocol()` convenience wrapper. -/
def unpauseProtocol (s : State) (sender now : Nat) : Except Error (State × Nat) :=
  proposeEmergencyAction s sender ActionType.UnpauseProtocol s.protocolTarget []
    unpauseProtocolReason now

/-- Forget the action id returned by a propose-style call, keeping the state
(used by `execOp`). -/
def dropId : Except Error (State × Nat) → Except Error State
  | .ok (s, _) => .ok s
  | .error e => .error e

/-- One external call to the council, for the reachability relation. -/
inductive Op
  | addMemberOp (sender member : Nat) (isFoundation : Bool) (now : Nat)
  | removeMemberOp (sender member : Nat)
  | setThresholdOp (sender newThreshold : Nat)
  | proposeOp (sender : Nat) (actionType : ActionType) (target : Nat)
      (data : List Nat) (reason : String) (now : Nat)
  | approveOp (sender actionId : Nat)
  | executeOp (sender actionId now : Nat) (callOk : Bool)
  | cancelOp (sender actionId : Nat)
  | cancelProposalOp (sender proposalId now : Nat)
  | pauseProtocolOp (sender : Nat) (reason : String) (now : Nat)
  | unpauseProtocolOp (sender now : Nat)
  | setDAOGovernorOp (sender newGovernor : Nat)
  | setProtocolTargetOp (sender newTarget : Nat)

/-- Execute one council call. -/
def execOp (s : State) : Op → Except Error State
  | .addMemberOp sender member isFoundation now => addMember s sender member isFoundation now
  | .removeMemberOp sender member => removeMember s sender member
  | .setThresholdOp sender newThreshold => setThreshold s sender newThreshold
  | .proposeOp sender actionType target data reason now =>
      dropId (proposeEmergencyAction s sender actionType target data reason now)
  | .approveOp sender actionId => approveEmergencyAction s sender actionId
  | .executeOp sender actionId now callOk => executeEmergencyAction s sender actionId now callOk
  | .cancelOp sender actionId => cancelEmergencyAction s sender actionId
  | .cancelProposalOp sender proposalId now =>
      dropId (cancelProposal s sender proposalId now)
  | .pauseProtocolOp sender reason now => dropId (pauseProtocol s sender reason now)
  | .unpauseProtocolOp sender now => dropId (unpauseProtocol s sender now)
  | .setDAOGovernorOp sender newGovernor => setDAOGovernor s sender newGovernor
  | .setProtocolTargetOp sender newTarget => setProtocolTarget s sender newTarget

/-- An all-zero council state, used as fallback when extracting a concrete
deployed state. -/
def fallbackState : State :=
  { daoGovernor := 0, timelockAddress := 0, protocolTarget := 0, threshold := 0,
    actionCount := 0, members := [], isMemberMap := fun _ => false,
    memberIndex := fun _ => 0, actions := fun _ => EmergencyAction.empty,
    pendingActionIds := [], approvals := fun _ _ => false, paused := false }

/-- Concrete council used in witnesses: foundation member 1, externals 2 and 3,
DAO governor 4, timelock 5, protocol target 6, deployed at time 7. -/
def sampleCouncil : State :=
  match deploy 1 [2, 3] 4 5 6 7 with
  | .ok s => s
  | .error _ => fallbackState

/-- Reason string used by the witness action. -/
def sampleReason : String := "r"

/-- `sampleCouncil` after member 1 proposes a custom emergency action
(action id 0) at time 11, targeting address 9. -/
def sampleCouncilAction : State :=
  match proposeEmergencyAction sampleCouncil 1 ActionType.Custom 9 [] sampleReason 11 with
  | .ok (s, _) => s
  | .error _ => fallbackState

/-- `sampleCouncilAction` after member 2 cancels action 0. -/
def sampleCouncilCanceled : State :=
  match cancelEmergencyAction sampleCouncilAction 2 0 with
  | .ok s => s
  | .error _ => fallbackState

/-- C6's invariant: the threshold is alive and never exceeds the member count. -/
def thresholdInvariant (s : State) : Prop :=
  1 ≤ s.threshold ∧ s.threshold ≤ s.members.length

/-- States reachable from a deployed council through successful calls. -/
inductive Reachable : State → Prop
  | init (foundationMember : Nat) (extMembers : List Nat)
      (daoGovernor timelock protocolTarget now : Nat) (s : State) :
      deploy foundationMember extMembers daoGovernor timelock protocolTarget now =
        Except.ok s →
      Reachable s
  | step (s s' : State) (op : Op) : Reachable s → execOp s op = Except.ok s' → Reachable s'

end SecurityCouncil

/-! ## DelegateRegistry (`DelegateRegistry.sol`)

Escrow-based delegation registry.  The vTON token it moves tokens through is
part of the state: `balances` / `totalSupply` / `allowanceToRegistry` embed
the OpenZeppelin ERC20 ledger as seen by the registry (`registryAddr` is
`address(this)`; `allowanceToRegistry o` is `allowance(o, address(this))`).
`safeTransferFrom` / `safeTransfer` revert (`TransferFailed`) on insufficient
balance or allowance, as the OpenZeppelin ERC20 does.  Solidity 0.8 checked
subtraction is modelled by explicit `ArithmeticUnderflow` guards. -/

namespace DelegateRegistry

/-- Custom errors of `DelegateRegistry.sol`, plus `NotOwner` (`Ownable`),
`TransferFailed` (ERC20 revert bubbled through `SafeERC20`) and
`ArithmeticUnderflow` (Solidity 0.8 checked-arithmetic panic). -/
inductive Error
  | NotRegisteredDelegator
  | AlreadyRegisteredDelegator
  | DelegatorNotActive
  | DelegationCapExceeded
  | InsufficientDelegation
  | ZeroAmount
  | ZeroAddress
  | InvalidCap
  | SelfDelegationNotAllowed
  | EmptyProfile
  | DelegationExpired
  | NotOwner
  | TransferFailed
  | ArithmeticUnderflow
deriving DecidableEq

/-- `IDelegateRegistry.DelegatorInfo`. -/
structure DelegatorInfo where
  profile : String
  votingPhilosophy : String
  interests : String
  registeredAt : Nat
  isActive : Bool
deriving DecidableEq

/-- The zero-initialized delegator record (mapping default). -/
def DelegatorInfo.empty : DelegatorInfo :=
  { profile := "", votingPhilosophy := "", interests := "", registeredAt := 0, isActive := false }

/-- `IDelegateRegistry.DelegationInfo`. -/
structure DelegationInfo where
  delegator : Nat
  amount : Nat
  delegatedAt : Nat
  expiresAt : Nat
deriving DecidableEq

/-- The zero-initialized delegation record (mapping default). -/
def DelegationInfo.empty : DelegationInfo :=
  { delegator := 0, amount := 0, delegatedAt := 0, expiresAt := 0 }

/-- `MAX_CAP = 10_000` basis points. -/
def MAX_CAP : Nat := 10000

/-- `DEFAULT_CAP = 2000` basis points (20%). -/
def DEFAULT_CAP : Nat := 2000

/-- `DEFAULT_PERIOD = 7 days` in seconds. -/
def DEFAULT_PERIOD : Nat := 7 * 86400

/-- Registry state (including the vTON ledger the registry interacts with). -/
structure State where
  owner : Nat
  registryAddr : Nat
  balances : Nat → Nat
  totalSupply : Nat
  allowanceToRegistry : Nat → Nat
  delegationCap : Nat
  delegationPeriodRequirement : Nat
  autoExpiryPeriod : Nat
  delegators : Nat → DelegatorInfo
  delegations : Nat → Nat → DelegationInfo
  totalDelegated : Nat → Nat
  totalDelegatedBy : Nat → Nat
  delegationTimestamps : Nat → Nat → Nat
  delegatorsToOwners : Nat → List Nat
  delegatorList : List Nat
  votingPowerCheckpoints : Nat → List (Nat × Nat)

/-- The registry constructor (`delegationCap = DEFAULT_CAP`,
`delegationPeriodRequirement = DEFAULT_PERIOD`, no auto-expiry), over an
arbitrary initial token ledger. -/
def deploy (owner registryAddr : Nat) (balances : Nat → Nat) (totalSupply : Nat)
    (allowanceToRegistry : Nat → Nat) : State :=
  { owner := owner, registryAddr := registryAddr, balances := balances,
    totalSupply := totalSupply, allowanceToRegistry := allowanceToRegistry,
    delegationCap := DEFAULT_CAP, delegationPeriodRequirement := DEFAULT_PERIOD,
    autoExpiryPeriod := 0, delegators := fun _ => DelegatorInfo.empty,
    delegations := fun _ _ => DelegationInfo.empty, totalDelegated := fun _ => 0,
    totalDelegatedBy := fun _ => 0, delegationTimestamps := fun _ _ => 0,
    delegatorsToOwners := fun _ => [], delegatorList := [],
    votingPowerCheckpoints := fun _ => [] }

/-- ERC20 `transferFrom(fromAddr, toAddr, amount)` with the registry as the
approved spender (OpenZeppelin semantics: revert on insufficient allowance or
balance, debit the allowance). -/
def tokenTransferFrom (s : State) (fromAddr toAddr amount : Nat) : Except Error State :=
  if s.allowanceToRegistry fromAddr < amount then .error .TransferFailed
  else if s.balances fromAddr < amount then .error .TransferFailed
  else
    .ok { s with
            allowanceToRegistry :=
              upd s.allowanceToRegistry fromAddr (s.allowanceToRegistry fromAddr - amount),
            balances :=
              upd (upd s.balances fromAddr (s.balances fromAddr - amount)) toAddr
                (upd s.balances fromAddr (s.balances fromAddr - amount) toAddr + amount) }

/-- ERC20 `transfer(toAddr, amount)` out of `fromAddr` (the registry). -/
def tokenTransfer (s : State) (fromAddr toAddr amount : Nat) : Except Error State :=
  if s.balances fromAddr < amount then .error .TransferFailed
  else
    .ok { s with
            balances :=
              upd (upd s.balances fromAddr (s.balances fromAddr - amount)) toAddr
                (upd s.balances fromAddr (s.balances fromAddr - amount) toAddr + amount) }

/-- Internal `_updateVotingPowerCheckpoint`: push `(block.number,
totalDelegated)` onto the delegator's checkpoint trace. -/
def updateVotingPowerCheckpoint (s : State) (delegator blockNum : Nat) : State :=
  { s with
      votingPowerCheckpoints := upd s.votingPowerCheckpoints delegator
        (s.votingPowerCheckpoints delegator ++ [(blockNum, s.totalDelegated delegator)]) }

/-- `registerDelegator(profile, votingPhilosophy, interests)` by `sender` at
time `now`. -/
def registerDelegator (s : State) (sender : Nat)
    (profile votingPhilosophy interests : String) (now : Nat) : Except Error State :=
  if profile.length = 0 then .error .EmptyProfile
  else if (s.delegators sender).registeredAt ≠ 0 then .error .AlreadyRegisteredDelegator
  else
    .ok { s with
            delegators := upd s.delegators sender
              { profile := profile, votingPhilosophy := votingPhilosophy,
                interests := interests, registeredAt := now, isActive := true },
            delegatorList := s.delegatorList ++ [sender] }

/-- `updateDelegator(profile, votingPhilosophy, interests)` by `sender`. -/
def updateDelegator (s : State) (sender : Nat)
    (profile votingPhilosophy interests : String) : Except Error State :=
  if profile.length = 0 then .error .EmptyProfile
  else if (s.delegators sender).registeredAt = 0 then .error .NotRegisteredDelegator
  else
    .ok { s with
            delegators := upd s.delegators sender
              { s.delegators sender with
                  profile := profile, votingPhilosophy := votingPhilosophy,
                  interests := interests } }

/-- `deactivateDelegator()` by `sender`. -/
def deactivateDelegator (s : State) (sender : Nat) : Except Error State :=
  if (s.delegators sender).registeredAt = 0 then .error .NotRegisteredDelegator
  else
    .ok { s with
            delegators := upd s.delegators sender
              { s.delegators sender with isActive := false } }

/-- `delegate(delegator, amount)` by `sender` at time `now`, block `blockNum`:
checks, escrow transfer into the registry, record update (timestamp reset to
`now` for the whole amount), totals, owner-list bookkeeping, checkpoint. -/
def delegate (s : State) (sender delegator amount now blockNum : Nat) : Except Error State :=
  if delegator = 0 then .error .ZeroAddress
  else if amount = 0 then .error .ZeroAmount
  else if delegator = sender then .error .SelfDelegationNotAllowed
  else if (s.delegators delegator).registeredAt = 0 ∨
      (s.delegators delegator).isActive = false then .error .DelegatorNotActive
  else if s.totalDelegated delegator + amount > s.totalSupply * s.delegationCap / MAX_CAP then
    .error .DelegationCapExceeded
  else
    match tokenTransferFrom s sender s.registryAddr amount with
    | .error e => .error e
    | .ok s1 =>
        .ok (updateVotingPowerCheckpoint
          { s1 with
              delegations := upd2 s1.delegations sender delegator
                { delegator := delegator,
                  amount := (s1.delegations sender delegator).amount + amount,
                  delegatedAt := now,
                  expiresAt :=
                    if s1.autoExpiryPeriod > 0 then now + s1.autoExpiryPeriod
                    else (s1.delegations sender delegator).expiresAt },
              totalDelegated := upd s1.totalDelegated delegator
                (s1.totalDelegated delegator + amount),
              totalDelegatedBy := upd s1.totalDelegatedBy sender
                (s1.totalDelegatedBy sender + amount),
              delegatorsToOwners :=
                if s1.delegationTimestamps delegator sender = 0 then
                  upd s1.delegatorsToOwners delegator
                    (s1.delegatorsToOwners delegator ++ [sender])
                else s1.delegatorsToOwners,
              delegationTimestamps := upd2 s1.delegationTimestamps delegator sender now }
          delegator blockNum)

/-- The source-side bookkeeping shared by `undelegate` and the first half of
`redelegate`: decrease (and possibly delete) the delegation record, clear the
timestamp on full withdrawal, and decrease the delegator's total. -/
def applyUndelegationSide (s : State) (sender delegator amount : Nat) : State :=
  { s with
      delegations :=
        if (s.delegations sender delegator).amount - amount = 0 then
          upd2 s.delegations sender delegator DelegationInfo.empty
        else
          upd2 s.delegations sender delegator
            { s.delegations sender delegator with
                amount := (s.delegations sender delegator).amount - amount },
      delegationTimestamps :=
        if (s.delegations sender delegator).amount - amount = 0 then
          upd2 s.delegationTimestamps delegator sender 0
        else s.delegationTimestamps,
      totalDelegated := upd s.totalDelegated delegator
        (s.totalDelegated delegator - amount) }

/-- The destination-side bookkeeping of `redelegate`: top up the record
(resetting its timestamp), increase the delegator's total, record the
timestamp. -/
def applyDelegationSide (s : State) (sender delegator amount now : Nat) : State :=
  { s with
      delegations := upd2 s.delegations sender delegator
        { delegator := delegator,
          amount := (s.delegations sender delegator).amount + amount,
          delegatedAt := now,
          expiresAt :=
            if s.autoExpiryPeriod > 0 then now + s.autoExpiryPeriod
            else (s.delegations sender delegator).expiresAt },
      totalDelegated := upd s.totalDelegated delegator
        (s.totalDelegated delegator + amount),
      delegationTimestamps := upd2 s.delegationTimestamps delegator sender now }

/-- `undelegate(delegator, amount)` by `sender` at block `blockNum`: record
and totals update (full-withdrawal deletes the record and its timestamp),
checkpoint, then escrow transfer back to the owner. -/
def undelegate (s : State) (sender delegator amount blockNum : Nat) : Except Error State :=
  if delegator = 0 then .error .ZeroAddress
  else if amount = 0 then .error .ZeroAmount
  else if (s.delegations sender delegator).amount < amount then .error .InsufficientDelegation
  else if s.totalDelegated delegator < amount then .error .ArithmeticUnderflow
  else if s.totalDelegatedBy sender < amount then .error .ArithmeticUnderflow
  else
    tokenTransfer
      (updateVotingPowerCheckpoint
        { applyUndelegationSide s sender delegator amount with
            totalDelegatedBy := upd s.totalDelegatedBy sender
              (s.totalDelegatedBy sender - amount) }
        delegator blockNum)
      s.registryAddr sender amount

/-- `redelegate(fromDelegator, toDelegator, amount)` by `sender` at time
`now`, block `blockNum`: atomic move between delegators, no token movement;
the destination record reads the state after the source update (relevant when
`fromDelegator = toDelegator`).  Note the source does not push `sender` onto
`_delegatorsToOwners[toDelegator]`. -/
def redelegate (s : State) (sender fromDelegator toDelegator amount now blockNum : Nat) :
    Except Error State :=
  if fromDelegator = 0 ∨ toDelegator = 0 then .error .ZeroAddress
  else if amount = 0 then .error .ZeroAmount
  else if toDelegator = sender then .error .SelfDelegationNotAllowed
  else if (s.delegators toDelegator).registeredAt = 0 ∨
      (s.delegators toDelegator).isActive = false then .error .DelegatorNotActive
  else if (s.delegations sender fromDelegator).amount < amount then
    .error .InsufficientDelegation
  else if s.totalDelegated toDelegator + amount > s.totalSupply * s.delegationCap / MAX_CAP then
    .error .DelegationCapExceeded
  else if s.totalDelegated fromDelegator < amount then .error .ArithmeticUnderflow
  else
    .ok (updateVotingPowerCheckpoint
      (updateVotingPowerCheckpoint
        (applyDelegationSide (applyUndelegationSide s sender fromDelegator amount)
          sender toDelegator amount now)
        fromDelegator blockNum)
      toDelegator blockNum)

/-- The loop body of `getVotingPower` for one owner: the delegation counts iff
its timestamp is set and at most `now - delegationPeriodRequirement`, its
amount is nonzero, and it has not expired. -/
def votingPowerContribution (s : State) (delegator owner now : Nat) : Nat :=
  if s.delegationTimestamps delegator owner > 0 ∧
      s.delegationTimestamps delegator owner ≤ now - s.delegationPeriodRequirement then
    if (s.delegations owner delegator).amount > 0 then
      if (s.delegations owner delegator).expiresAt = 0 ∨
          (s.delegations owner delegator).expiresAt > now then
        (s.delegations owner delegator).amount
      else 0
    else 0
  else 0

/-- `getVotingPower(delegator, blockNumber, snapshotBlock)` (the two block
arguments are ignored by the source).  `block.timestamp -
delegationPeriodRequirement` underflows (reverts, modelled as `none`) whenever
`delegationPeriodRequirement > now`; otherwise the function sums the matured,
unexpired, nonzero delegations over the delegator's owner list. -/
def getVotingPower (s : State) (delegator now : Nat) : Option Nat :=
  if s.delegationPeriodRequirement > now then none
  else
    some ((s.delegatorsToOwners delegator).foldl
      (fun acc owner => acc + votingPowerContribution s delegator owner now) 0)

/-- `setDelegationCap(cap)` by `sender` (owner-only, at most `MAX_CAP`). -/
def setDelegationCap (s : State) (sender cap : Nat) : Except Error State :=
  if sender ≠ s.owner then .error .NotOwner
  else if cap > MAX_CAP then .error .InvalidCap
  else .ok { s with delegationCap := cap }

/-- `setDelegationPeriodRequirement(period)` by `sender` (owner-only, no
bound on the period). -/
def setDelegationPeriodRequirement (s : State) (sender period : Nat) : Except Error State :=
  if sender ≠ s.owner then .error .NotOwner
  else .ok { s with delegationPeriodRequirement := period }

/-- `setAutoExpiryPeriod(period)` by `sender` (owner-only). -/
def setAutoExpiryPeriod (s : State) (sender period : Nat) : Except Error State :=
  if sender ≠ s.owner then .error .NotOwner
  else .ok { s with autoExpiryPeriod := period }

/-- One external call to the registry, for the reachability relation. -/
inductive Op
  | registerOp (sender : Nat) (profile votingPhilosophy interests : String) (now : Nat)
  | updateOp (sender : Nat) (profile votingPhilosophy interests : String)
  | deactivateOp (sender : Nat)
  | delegateOp (sender delegator amount now blockNum : Nat)
  | undelegateOp (sender delegator amount blockNum : Nat)
  | redelegateOp (sender fromDelegator toDelegator amount now blockNum : Nat)
  | setCapOp (sender cap : Nat)
  | setPeriodOp (sender period : Nat)
  | setExpiryOp (sender period : Nat)

/-- Execute one registry call. -/
def execOp (s : State) : Op → Except Error State
  | .registerOp sender profile votingPhilosophy interests now =>
      registerDelegator s sender profile votingPhilosophy interests now
  | .updateOp sender profile votingPhilosophy interests =>
      updateDelegator s sender profile votingPhilosophy interests
  | .deactivateOp sender => deactivateDelegator s sender
  | .delegateOp sender delegator amount now blockNum =>
      delegate s sender delegator amount now blockNum
  | .undelegateOp sender delegator amount blockNum =>
      undelegate s sender delegator amount blockNum
  | .redelegateOp sender fromDelegator toDelegator amount now blockNum =>
      redelegate s sender fromDelegator toDelegator amount now blockNum
  | .setCapOp sender cap => setDelegationCap s sender cap
  | .setPeriodOp sender period => setDelegationPeriodRequirement s sender period
  | .setExpiryOp sender period => setAutoExpiryPeriod s sender period

/-- Run a sequence of registry calls, failing on the first revert. -/
def runOps (s : State) : List Op → Except Error State
  | [] => .ok s
  | op :: rest =>
      match execOp s op with
      | .ok s1 => runOps s1 rest
      | .error e => .error e

/-- States reachable from a deployed registry through successful calls
(delegate / undelegate / redelegate, the registration calls, and all admin
setters, including cap-lowering `setDelegationCap`). -/
inductive Reachable : State → Prop
  | init (owner registryAddr : Nat) (balances : Nat → Nat) (totalSupply : Nat)
      (allowanceToRegistry : Nat → Nat) :
      Reachable (deploy owner registryAddr balances totalSupply allowanceToRegistry)
  | step (s s' : State) (op : Op) : Reachable s → execOp s op = Except.ok s' → Reachable s'

/-- Reachability restricted to runs whose `setDelegationCap` calls never
lower the cap. -/
inductive ReachableMonotoneCap : State → Prop
  | init (owner registryAddr : Nat) (balances : Nat → Nat) (totalSupply : Nat)
      (allowanceToRegistry : Nat → Nat) :
      ReachableMonotoneCap (deploy owner registryAddr balances totalSupply allowanceToRegistry)
  | step (s s' : State) (op : Op) : ReachableMonotoneCap s → execOp s op = Except.ok s' →
      (∀ sender cap, op = Op.setCapOp sender cap → s.delegationCap ≤ cap) →
      ReachableMonotoneCap s'

/-- C1's invariant: no delegator's total exceeds the cap fraction of supply. -/
def capInvariant (s : State) : Prop :=
  ∀ d, s.totalDelegated d ≤ s.totalSupply * s.delegationCap / MAX_CAP

/-- An op is a delegation move made by owner `o` (the moves C2 quantifies
over). -/
def Op.isOwnerMove (op : Op) (o : Nat) : Prop :=
  match op with
  | .delegateOp sender _ _ _ _ => sender = o
  | .undelegateOp sender _ _ _ => sender = o
  | .redelegateOp sender _ _ _ _ _ => sender = o
  | _ => False

/-- The delegator addresses an op's delegation records touch. -/
def Op.touchedDelegators : Op → List Nat
  | .delegateOp _ delegator _ _ _ => [delegator]
  | .undelegateOp _ delegator _ _ => [delegator]
  | .redelegateOp _ fromDelegator toDelegator _ _ _ => [fromDelegator, toDelegator]
  | _ => []

/-- C2's conserved quantity: owner `o`'s token balance plus the sum of `o`'s
individual delegation record amounts over the delegator set `ds`. -/
def ownerHoldings (s : State) (o : Nat) (ds : Finset Nat) : Nat :=
  s.balances o + ∑ d ∈ ds, (s.delegations o d).amount

/-- Profile strings for concrete runs. -/
def sampleProfile : String := "p"

/-- Philosophy string for concrete runs. -/
def samplePhilosophy : String := "q"

/-- Interests string for concrete runs. -/
def sampleInterests : String := "i"

/-- Initial registry for the C1 runs: owner 1, registry address 100, user 2
holds the whole 20000 supply and has approved the registry. -/
def c1Init : State := deploy 1 100 (upd (fun _ => 0) 2 20000) 20000 (fun _ => 1000000)

/-- Register 3 as a delegator, delegate 4000 (exactly the 20% cap of the
20000 supply), then lower the cap to 10%. -/
def c1Ops : List Op :=
  [Op.registerOp 3 sampleProfile samplePhilosophy sampleInterests 1,
   Op.delegateOp 2 3 4000 1 1,
   Op.setCapOp 1 1000]

/-- The state after `c1Ops`: 4000 delegated to 3 under a 10% cap (2000). -/
def c1State : State :=
  match runOps c1Init c1Ops with
  | .ok s => s
  | .error _ => c1Init

/-- The same run without the cap lowering. -/
def c1OpsMonotone : List Op :=
  [Op.registerOp 3 sampleProfile samplePhilosophy sampleInterests 1,
   Op.delegateOp 2 3 4000 1 1]

/-- The state after `c1OpsMonotone`. -/
def c1StateMonotone : State :=
  match runOps c1Init c1OpsMonotone with
  | .ok s => s
  | .error _ => c1Init

/-- The state after only the registration step of `c1Ops`. -/
def c1Mid : State :=
  match execOp c1Init (Op.registerOp 3 sampleProfile samplePhilosophy sampleInterests 1) with
  | .ok s => s
  | .error _ => c1Init

/-- Owner 2's moves for the C2 witness: delegate 1000 to delegator 3 at time
1, then take back 400. -/
def c2Ops : List Op :=
  [Op.delegateOp 2 3 1000 1 1, Op.undelegateOp 2 3 400 2]

/-- The state after `c2Ops`, starting from `c1Mid`. -/
def c2State : State :=
  match runOps c1Mid c2Ops with
  | .ok s => s
  | .error _ => c1Mid

/-- Registry in which address 2 is itself a registered, active delegator with
ample balance, allowance, and cap headroom (the C4 scenario of
`test_SelfDelegationAllowed`). -/
def c4State : State :=
  match execOp c1Init (Op.registerOp 2 sampleProfile samplePhilosophy sampleInterests 1) with
  | .ok s => s
  | .error _ => c1Init

end DelegateRegistry

/-! ## DAOGovernor `cancel` (modelled from the spec)

`DAOGovernor.sol` itself is not part of the repository snapshot under `src/`
(only its test suite `DAOGovernor.t.sol` is), so the cancellation authority
rule is modelled from the specification. -/

namespace DAOGovernor

/-- `IDAOGovernor.ProposalState`. -/
inductive ProposalState
  | Pending
  | Active
  | Canceled
  | Defeated
  | Succeeded
  | Queued
  | Expired
  | Executed
deriving DecidableEq

/-- Outcome of a `cancel` call. -/
inductive CancelResult
  | success
  | invalidProposalState
  | notAuthorizedToCancel
deriving DecidableEq

/-- Modelled from the spec: `DAOGovernor.sol` is missing from `src/` (only its
tests are present), so `cancel(id)` is modelled from spec section 4.4: the
original proposer may cancel in any state except the terminal `Executed`,
`Canceled`, `Expired` (those fail with `InvalidProposalState`); the proposal
guardian may cancel only in `Pending`, `Active`, `Succeeded`, `Queued`
(anything else fails with `InvalidProposalState`); any other caller fails
with `NotAuthorizedToCancel`. -/
def cancel (proposer guardian caller : Nat) (st : ProposalState) : CancelResult :=
  if caller = proposer then
    match st with
    | .Executed | .Canceled | .Expired => .invalidProposalState
    | _ => .success
  else if caller = guardian then
    match st with
    | .Pending | .Active | .Succeeded | .Queued => .success
    | _ => .invalidProposalState
  else .notAuthorizedToCancel

end DAOGovernor

end TokamakDAO

namespace TokamakDAO

/-! ## Theorems -/

theorem upd_same {κ α : Type} [DecidableEq κ] (f : κ → α) (k : κ) (v : α) : upd f k v k = v := by
  simp [upd]

theorem upd_other {κ α : Type} [DecidableEq κ] (f : κ → α) (k k' : κ) (v : α) (h : k' ≠ k) :
    upd f k v k' = f k' := by
  simp [upd, Function.update_noteq h]

open VTON in
/-- C7: `vTON.mint(to, amount)` by an authorized minter with `to` nonzero mints
exactly `floor(amount * emissionRatio / 1e18)` to `to`; the minted amount never
exceeds the request when `emissionRatio ≤ 1e18` (which every successful
`setEmissionRatio` enforces); and a zero adjusted amount is a silent success
with no state change and no `Minted` event. -/
theorem C7_mint_emission_ratio (s : VTON.State) (sender toAddr amount : Nat)
    (hm : s.minters sender = true) (hto : toAddr ≠ 0)
    (hr : s.emissionRatio ≤ maxEmissionRatio) :
    (amount * s.emissionRatio / maxEmissionRatio ≤ amount) ∧
    (amount * s.emissionRatio / maxEmissionRatio = 0 →
      VTON.mint s sender toAddr amount = Except.ok (s, [])) ∧
    (∀ a, a = amount * s.emissionRatio / maxEmissionRatio → a ≠ 0 →
      VTON.mint s sender toAddr amount =
        Except.ok ({ s with
                       balances := upd s.balances toAddr (s.balances toAddr + a),
                       totalSupply := s.totalSupply + a },
                   [VTON.Event.Minted toAddr a])) ∧
    (∀ caller r s' evs, VTON.setEmissionRatio s caller r = Except.ok (s', evs) →
      r ≤ maxEmissionRatio ∧ s'.emissionRatio = r) := by
  refine ⟨?_, ?_, ?_, ?_⟩
  · calc amount * s.emissionRatio / maxEmissionRatio
        ≤ amount * maxEmissionRatio / maxEmissionRatio :=
          Nat.div_le_div_right (Nat.mul_le_mul_left _ hr)
      _ = amount := Nat.mul_div_cancel _ (by norm_num [maxEmissionRatio])
  · intro h0
    simp [VTON.mint, hm, hto, h0]
  · intro a ha hne
    subst ha
    simp [VTON.mint, hm, hto, hne]
  · intro caller r s' evs h
    unfold VTON.setEmissionRatio at h
    split at h
    · exact absurd h (by simp)
    · split at h
      · exact absurd h (by simp)
      · refine ⟨by omega, ?_⟩
        simp only [Except.ok.injEq, Prod.mk.injEq] at h
        rw [← h.1]

/-- Witness for C7: minting 4 wei at a 10% emission ratio adjusts to 0 and is
a silent no-op (owner 1, emission ratio 10^17, address 2 a minter). -/
theorem C7_mint_emission_ratio_witness :
    VTON.mint
      { owner := 1, emissionRatio := 10 ^ 17, minters := upd (fun _ => false) 2 true,
        balances := fun _ => 0, totalSupply := 0 } 2 3 4 =
    Except.ok
      ({ owner := 1, emissionRatio := 10 ^ 17, minters := upd (fun _ => false) 2 true,
         balances := fun _ => 0, totalSupply := 0 }, []) :=
  (C7_mint_emission_ratio _ 2 3 4 (by decide) (by decide)
    (by norm_num [VTON.maxEmissionRatio])).2.1
    (by norm_num [VTON.maxEmissionRatio])

open Timelock in
/-- C5: for a governor call whose external payload call succeeds,
`executeTransaction(target, value, data, eta)` at time `now` succeeds iff the
tuple is queued, not canceled, `eta ≤ now`, and `now ≤ eta + GRACE_PERIOD`;
otherwise it reverts with the specific error of the first failing condition;
and success marks the tuple no longer queued, so a second execution of the
same tuple fails with `TransactionNotQueued`. -/
theorem C5_timelock_execute_window (s : Timelock.State)
    (sender target value : Nat) (data : List Nat) (eta now : Nat) (callOk : Bool)
    (hgov : sender = s.governor) (hcall : callOk = true) :
    ((∃ s', Timelock.executeTransaction s sender target value data eta now callOk =
        Except.ok s') ↔
      (s.queuedTransactions (target, value, data, eta) = true ∧
       s.canceledTransactions (target, value, data, eta) = false ∧
       eta ≤ now ∧ now ≤ eta + GRACE_PERIOD)) ∧
    (s.queuedTransactions (target, value, data, eta) = false →
      Timelock.executeTransaction s sender target value data eta now callOk =
        Except.error Timelock.Error.TransactionNotQueued) ∧
    (s.queuedTransactions (target, value, data, eta) = true →
      s.canceledTransactions (target, value, data, eta) = true →
      Timelock.executeTransaction s sender target value data eta now callOk =
        Except.error Timelock.Error.TransactionAlreadyCanceled) ∧
    (s.queuedTransactions (target, value, data, eta) = true →
      s.canceledTransactions (target, value, data, eta) = false →
      now < eta →
      Timelock.executeTransaction s sender target value data eta now callOk =
        Except.error Timelock.Error.TransactionNotReady) ∧
    (s.queuedTransactions (target, value, data, eta) = true →
      s.canceledTransactions (target, value, data, eta) = false →
      eta + GRACE_PERIOD < now →
      Timelock.executeTransaction s sender target value data eta now callOk =
        Except.error Timelock.Error.TransactionExpired) ∧
    (∀ s', Timelock.executeTransaction s sender target value data eta now callOk =
        Except.ok s' →
      s'.queuedTransactions (target, value, data, eta) = false ∧
      ∀ now2 callOk2,
        Timelock.executeTransaction s' sender target value data eta now2 callOk2 =
          Except.error Timelock.Error.TransactionNotQueued) := by
  subst hcall
  refine ⟨?_, ?_, ?_, ?_, ?_, ?_⟩
  · constructor
    · rintro ⟨s', hs'⟩
      unfold Timelock.executeTransaction at hs'
      simp only [hgov] at hs'
      split at hs' <;> simp_all
      split at hs' <;> try simp_all
      split at hs' <;> try simp_all
      split at hs' <;> try simp_all
      split at hs' <;> simp_all
    · rintro ⟨hq, hc, h1, h2⟩
      have hgoal : Timelock.executeTransaction s sender target value data eta now true = Except.ok { s with queuedTransactions := upd s.queuedTransactions (target, value, data, eta) false } := by
        unfold Timelock.executeTransaction
        simp [hgov, hq, hc, Nat.not_lt.mpr h1, Nat.not_lt.mpr h2]
      exact ⟨_, hgoal⟩
  · intro hq
    unfold Timelock.executeTransaction
    simp [hgov, hq]
  · intro hq hc
    unfold Timelock.executeTransaction
    simp [hgov, hq, hc]
  · intro hq hc hlt
    unfold Timelock.executeTransaction
    simp [hgov, hq, hc, hlt, Nat.not_lt.mpr (Nat.le_of_lt hlt)]
  · intro hq hc hgt
    unfold Timelock.executeTransaction
    have h1 : ¬ now < eta := by omega
    simp [hgov, hq, hc, h1, hgt]
  · intro s' hs'
    unfold Timelock.executeTransaction at hs'
    split at hs'
    · exact absurd hs' (by simp)
    split at hs'
    · exact absurd hs' (by simp)
    split at hs'
    · exact absurd hs' (by simp)
    split at hs'
    · exact absurd hs' (by simp)
    split at hs'
    · exact absurd hs' (by simp)
    split at hs'
    · exact absurd hs' (by simp)
    cases hs'
    refine ⟨upd_same _ _ _, ?_⟩
    intro now2 callOk2
    unfold Timelock.executeTransaction
    simp [hgov, upd_same]

/-- Witness for C5: in a state where the tuple (7, 0, [9], 100) is queued and
not canceled, execution at time 99 (one second early) reverts `NotReady`, at
time 100 succeeds, and at `eta + grace + 1` reverts `Expired`. -/
theorem C5_timelock_execute_window_witness :
    (Timelock.executeTransaction
      { admin := 1, governor := 5, securityCouncil := 6, delay := 3600,
        queuedTransactions := upd (fun _ => false) (7, 0, [9], 100) true,
        canceledTransactions := fun _ => false, transactionEta := fun _ => 0 }
      5 7 0 [9] 100 99 true = Except.error Timelock.Error.TransactionNotReady) ∧
    (Timelock.executeTransaction
      { admin := 1, governor := 5, securityCouncil := 6, delay := 3600,
        queuedTransactions := upd (fun _ => false) (7, 0, [9], 100) true,
        canceledTransactions := fun _ => false, transactionEta := fun _ => 0 }
      5 7 0 [9] 100 (100 + Timelock.GRACE_PERIOD + 1) true =
        Except.error Timelock.Error.TransactionExpired) := by
  constructor
  · exact (C5_timelock_execute_window _ 5 7 0 [9] 100 99 true rfl rfl).2.2.2.1
      (by decide) (by decide) (by decide)
  · exact (C5_timelock_execute_window _ 5 7 0 [9] 100 (100 + Timelock.GRACE_PERIOD + 1)
      true rfl rfl).2.2.2.2.1 (by decide) (by decide) (by decide)

namespace SecurityCouncil

theorem addMemberInternal_members_length (s : State) (m : Nat) (f : Bool) (now : Nat) :
    (addMemberInternal s m f now).members.length = s.members.length + 1 := by
  simp [addMemberInternal]

theorem foldl_addMemberInternal_length (l : List Nat) (s : State) (now : Nat) :
    ((l.foldl (fun t m => addMemberInternal t m false now) s).members).length =
      s.members.length + l.length := by
  induction l generalizing s with
  | nil => rfl
  | cons a l ih =>
    rw [List.foldl_cons, ih, addMemberInternal_members_length, List.length_cons]
    omega

theorem removeMemberInternal_threshold (s : State) (m : Nat) :
    (removeMemberInternal s m).threshold = s.threshold := rfl

theorem removeMemberInternal_members_length (s : State) (m : Nat) :
    (removeMemberInternal s m).members.length = s.members.length - 1 := by
  unfold removeMemberInternal
  dsimp only
  split <;> simp

theorem deploy_ok_shape (f : Nat) (ext : List Nat) (dao tl pt now : Nat) (s : State)
    (h : deploy f ext dao tl pt now = Except.ok s) :
    s.threshold = (s.members.length * 2 + 2) / 3 ∧ s.members.length = 1 + ext.length := by
  unfold deploy at h
  split at h
  · exact absurd h (by simp)
  split at h
  · exact absurd h (by simp)
  cases h
  refine ⟨rfl, ?_⟩
  show ((ext.foldl (fun t m => addMemberInternal t m false now) _).members).length = _
  rw [foldl_addMemberInternal_length, addMemberInternal_members_length]
  simp

theorem proposeMap_preserves (s : State) (sender : Nat) (a : ActionType) (t : Nat)
    (d : List Nat) (r : String) (now : Nat) (s' : State)
    (h : dropId (proposeEmergencyAction s sender a t d r now) = Except.ok s') :
    s'.members = s.members ∧ s'.threshold = s.threshold := by
  unfold proposeEmergencyAction at h
  split at h
  · exact absurd h (by simp [dropId])
  · simp only [dropId] at h
    cases h
    exact ⟨rfl, rfl⟩

theorem execOp_preserves_thresholdInvariant (s s' : State) (op : Op)
    (hinv : thresholdInvariant s) (h : execOp s op = Except.ok s') :
    thresholdInvariant s' := by
  obtain ⟨h1, h2⟩ := hinv
  cases op with
  | addMemberOp sender member isF now =>
    simp only [execOp] at h
    unfold addMember at h
    split at h
    · exact absurd h (by simp)
    split at h
    · exact absurd h (by simp)
    split at h
    · exact absurd h (by simp)
    cases h
    have haddlen := addMemberInternal_members_length s member isF now
    refine ⟨?_, ?_⟩
    · show 1 ≤ s.threshold
      exact h1
    · show s.threshold ≤ (addMemberInternal s member isF now).members.length
      omega
  | removeMemberOp sender member =>
    simp only [execOp] at h
    unfold removeMember at h
    split at h
    · exact absurd h (by simp)
    split at h
    · exact absurd h (by simp)
    split at h
    · exact absurd h (by simp)
    rename_i hsize
    split at h
    · exact absurd h (by simp)
    split at h
    · exact absurd h (by simp)
    simp only [MIN_MEMBERS] at hsize
    have hlen := removeMemberInternal_members_length s member
    have hthr := removeMemberInternal_threshold s member
    split at h <;> cases h
    · refine ⟨?_, ?_⟩
      · show 1 ≤ (removeMemberInternal s member).members.length
        omega
      · show (removeMemberInternal s member).members.length ≤
          (removeMemberInternal s member).members.length
        exact le_refl _
    · rename_i hnoclamp
      refine ⟨?_, ?_⟩
      · show 1 ≤ (removeMemberInternal s member).threshold
        omega
      · show (removeMemberInternal s member).threshold ≤
          (removeMemberInternal s member).members.length
        omega
  | setThresholdOp sender newThreshold =>
    simp only [execOp] at h
    unfold setThreshold at h
    split at h
    · exact absurd h (by simp)
    split at h
    · exact absurd h (by simp)
    rename_i hrange
    cases h
    push_neg at hrange
    refine ⟨?_, ?_⟩
    · show 1 ≤ newThreshold
      omega
    · show newThreshold ≤ s.members.length
      omega
  | proposeOp sender a t d r now =>
    simp only [execOp] at h
    obtain ⟨hm, ht⟩ := proposeMap_preserves s sender a t d r now s' h
    have hml := congrArg List.length hm
    exact ⟨by omega, by omega⟩
  | approveOp sender actionId =>
    simp only [execOp] at h
    unfold approveEmergencyAction at h
    split at h
    · exact absurd h (by simp)
    split at h
    · exact absurd h (by simp)
    split at h
    · exact absurd h (by simp)
    split at h
    · exact absurd h (by simp)
    cases h
    exact ⟨h1, h2⟩
  | executeOp sender actionId now callOk =>
    simp only [execOp] at h
    unfold executeEmergencyAction at h
    split at h
    · exact absurd h (by simp)
    split at h
    · exact absurd h (by simp)
    split at h
    · exact absurd h (by simp)
    split at h
    · exact absurd h (by simp)
    split at h
    · split at h
      · exact absurd h (by simp)
      · cases h
        exact ⟨h1, h2⟩
    split at h
    · split at h
      · exact absurd h (by simp)
      · cases h
        exact ⟨h1, h2⟩
    split at h
    · exact absurd h (by simp)
    cases h
    exact ⟨h1, h2⟩
  | cancelOp sender actionId =>
    simp only [execOp] at h
    unfold cancelEmergencyAction at h
    split at h
    · exact absurd h (by simp)
    split at h
    · exact absurd h (by simp)
    split at h
    · exact absurd h (by simp)
    cases h
    exact ⟨h1, h2⟩
  | cancelProposalOp sender proposalId now =>
    simp only [execOp, cancelProposal] at h
    obtain ⟨hm, ht⟩ := proposeMap_preserves s sender _ _ _ _ now s' h
    have hml := congrArg List.length hm
    exact ⟨by omega, by omega⟩
  | pauseProtocolOp sender r now =>
    simp only [execOp, pauseProtocol] at h
    obtain ⟨hm, ht⟩ := proposeMap_preserves s sender _ _ _ _ now s' h
    have hml := congrArg List.length hm
    exact ⟨by omega, by omega⟩
  | unpauseProtocolOp sender now =>
    simp only [execOp, unpauseProtocol] at h
    obtain ⟨hm, ht⟩ := proposeMap_preserves s sender _ _ _ _ now s' h
    have hml := congrArg List.length hm
    exact ⟨by omega, by omega⟩
  | setDAOGovernorOp sender newGovernor =>
    simp only [execOp] at h
    unfold setDAOGovernor at h
    split at h
    · exact absurd h (by simp)
    split at h
    · exact absurd h (by simp)
    cases h
    exact ⟨h1, h2⟩
  | setProtocolTargetOp sender newTarget =>
    simp only [execOp] at h
    unfold setProtocolTarget at h
    split at h
    · exact absurd h (by simp)
    split at h
    · exact absurd h (by simp)
    cases h
    exact ⟨h1, h2⟩

theorem removePending_not_mem (ids : List Nat) (a : Nat) (hnd : ids.Nodup) :
    a ∉ removePendingInternal ids a := by
  unfold removePendingInternal
  split
  · rename_i hmem
    intro hmem2
    have hi : ids.indexOf a < ids.length := List.indexOf_lt_length.mpr hmem
    obtain ⟨j, hj, hja⟩ := List.mem_iff_getElem.mp hmem2
    have hjl : j < ids.length - 1 := by simpa using hj
    have hj2 : j < ids.length := by omega
    have hlen1 : ids.length - 1 < ids.length := by omega
    rw [List.getElem_dropLast] at hja
    have hidx : ids[ids.indexOf a] = a := List.getElem_indexOf hi
    by_cases hij : ids.indexOf a = j
    · subst hij
      simp only [List.getElem_set_self, List.getD_eq_getElem ids 0 hlen1] at hja
      have heq : ids.length - 1 = ids.indexOf a :=
        (List.Nodup.getElem_inj_iff hnd).mp (by rw [hja, hidx])
      omega
    · simp only [List.getElem_set_ne hij] at hja
      exact hij ((List.Nodup.getElem_inj_iff hnd).mp (by rw [hja, hidx]))
  · rename_i hnot
    exact hnot

end SecurityCouncil

open SecurityCouncil in
/-- C6: the council threshold is initialized to `ceil(2/3 * memberCount)` at
construction; `setThreshold` accepts exactly the values in `[1, memberCount]`
and reverts with `InvalidThreshold` otherwise; `removeMember` clamps the
threshold down to the new member count whenever it would exceed it; and
`1 ≤ threshold ≤ memberCount` holds in every reachable state.
(`(2n + 2) / 3` in natural division is exactly `ceil(2n / 3)`.) -/
theorem C6_threshold_bounds :
    (∀ s, SecurityCouncil.Reachable s →
      1 ≤ s.threshold ∧ s.threshold ≤ s.members.length) ∧
    (∀ f ext dao tl pt now s,
      SecurityCouncil.deploy f ext dao tl pt now = Except.ok s →
      s.threshold = (s.members.length * 2 + 2) / 3 ∧
      2 * s.members.length ≤ 3 * s.threshold ∧
      3 * (s.threshold - 1) < 2 * s.members.length) ∧
    (∀ s sender t, sender = s.daoGovernor →
      ((∃ s', SecurityCouncil.setThreshold s sender t = Except.ok s') ↔
        (1 ≤ t ∧ t ≤ s.members.length)) ∧
      (¬(1 ≤ t ∧ t ≤ s.members.length) →
        SecurityCouncil.setThreshold s sender t =
          Except.error SecurityCouncil.Error.InvalidThreshold)) ∧
    (∀ s sender m s', SecurityCouncil.removeMember s sender m = Except.ok s' →
      s'.threshold = min s.threshold s'.members.length) := by
  refine ⟨?_, ?_, ?_, ?_⟩
  · intro s hs
    induction hs with
    | init f ext dao tl pt now s h =>
      obtain ⟨ht, hl⟩ := SecurityCouncil.deploy_ok_shape f ext dao tl pt now s h
      constructor <;> omega
    | step s s' op hs h ih =>
      exact SecurityCouncil.execOp_preserves_thresholdInvariant s s' op ih h
  · intro f ext dao tl pt now s h
    obtain ⟨ht, hl⟩ := SecurityCouncil.deploy_ok_shape f ext dao tl pt now s h
    refine ⟨ht, by omega, by omega⟩
  · intro s sender t hsender
    constructor
    · constructor
      · rintro ⟨s', hs'⟩
        unfold SecurityCouncil.setThreshold at hs'
        split at hs'
        · exact absurd hs' (by simp)
        split at hs'
        · exact absurd hs' (by simp)
        rename_i hrange
        push_neg at hrange
        omega
      · rintro ⟨ht1, ht2⟩
        refine ⟨{ s with threshold := t }, ?_⟩
        unfold SecurityCouncil.setThreshold
        rw [if_neg (by simp [hsender]), if_neg (by omega)]
    · intro hbad
      unfold SecurityCouncil.setThreshold
      rw [if_neg (by simp [hsender]), if_pos (by omega)]
  · intro s sender m s' h
    unfold SecurityCouncil.removeMember at h
    split at h
    · exact absurd h (by simp)
    split at h
    · exact absurd h (by simp)
    split at h
    · exact absurd h (by simp)
    split at h
    · exact absurd h (by simp)
    split at h
    · exact absurd h (by simp)
    have hthr := SecurityCouncil.removeMemberInternal_threshold s m
    split at h <;> cases h
    · rename_i hclamp
      show (SecurityCouncil.removeMemberInternal s m).members.length =
        min s.threshold (SecurityCouncil.removeMemberInternal s m).members.length
      omega
    · rename_i hnoclamp
      show (SecurityCouncil.removeMemberInternal s m).threshold =
        min s.threshold (SecurityCouncil.removeMemberInternal s m).members.length
      omega

/-- Witness for C6: the council deployed with foundation member 1 and external
members 2, 3 (member count 3) satisfies the invariant, and `setThreshold` to 5
by the DAO (address 4) reverts with `InvalidThreshold`. -/
theorem C6_threshold_bounds_witness :
    (1 ≤ SecurityCouncil.sampleCouncil.threshold ∧
      SecurityCouncil.sampleCouncil.threshold ≤
        SecurityCouncil.sampleCouncil.members.length) ∧
    SecurityCouncil.setThreshold SecurityCouncil.sampleCouncil 4 5 =
      Except.error SecurityCouncil.Error.InvalidThreshold := by
  constructor
  · exact C6_threshold_bounds.1 SecurityCouncil.sampleCouncil
      (SecurityCouncil.Reachable.init 1 [2, 3] 4 5 6 7 SecurityCouncil.sampleCouncil rfl)
  · exact (C6_threshold_bounds.2.2.1 SecurityCouncil.sampleCouncil 4 5 rfl).2 (by decide)

/-- C9: canceling a pending (created, not yet executed) emergency action by a
council member removes its id from the pending list, sets the same `executed`
flag that `executeEmergencyAction` sets while leaving `executedAt` at 0, and
afterwards both `approveEmergencyAction` and `executeEmergencyAction` on that
id revert with `ActionAlreadyExecuted`. -/
theorem C9_cancel_terminal (s : SecurityCouncil.State)
    (sender sender2 sender3 id now now3 : Nat) (callOk : Bool)
    (hmem : s.isMemberMap sender = true)
    (hmem2 : s.isMemberMap sender2 = true)
    (hmem3 : s.isMemberMap sender3 = true)
    (hfound : (s.actions id).createdAt ≠ 0)
    (hnotexec : (s.actions id).executed = false)
    (hts : (s.actions id).executedAt = 0)
    (hnd : s.pendingActionIds.Nodup) :
    ∃ s', SecurityCouncil.cancelEmergencyAction s sender id = Except.ok s' ∧
      id ∉ s'.pendingActionIds ∧
      (s'.actions id).executed = true ∧
      (s'.actions id).executedAt = 0 ∧
      (∀ s'', SecurityCouncil.executeEmergencyAction s sender id now callOk =
          Except.ok s'' → (s''.actions id).executed = true) ∧
      SecurityCouncil.approveEmergencyAction s' sender2 id =
        Except.error SecurityCouncil.Error.ActionAlreadyExecuted ∧
      SecurityCouncil.executeEmergencyAction s' sender3 id now3 callOk =
        Except.error SecurityCouncil.Error.ActionAlreadyExecuted := by
  refine ⟨{ s with pendingActionIds := SecurityCouncil.removePendingInternal s.pendingActionIds id, actions := upd s.actions id { s.actions id with executed := true } }, ?_, ?_, ?_, ?_, ?_, ?_, ?_⟩
  · unfold SecurityCouncil.cancelEmergencyAction
    rw [if_neg (by simp [hmem]), if_neg hfound, if_neg (by simp [hnotexec])]
  · exact SecurityCouncil.removePending_not_mem _ _ hnd
  · show (upd s.actions id { s.actions id with executed := true } id).executed = true
    rw [upd_same]
  · show (upd s.actions id { s.actions id with executed := true } id).executedAt = 0
    rw [upd_same]
    exact hts
  · intro s2 h
    unfold SecurityCouncil.executeEmergencyAction at h
    repeat' split at h
    all_goals cases h
    all_goals
      show (upd s.actions id _ id).executed = true
      rw [upd_same]
  · simp [SecurityCouncil.approveEmergencyAction, upd, hmem2, hfound]
  · simp [SecurityCouncil.executeEmergencyAction, upd, hmem3, hfound]

/-- Witness for C9: on the sample council, member 1 proposes action 0, member
2 cancels it; the id leaves the pending list, the action is flagged executed,
and a later approval by member 3 reverts with `ActionAlreadyExecuted`. -/
theorem C9_cancel_terminal_witness :
    SecurityCouncil.cancelEmergencyAction SecurityCouncil.sampleCouncilAction 2 0 =
      Except.ok SecurityCouncil.sampleCouncilCanceled ∧
    0 ∈ SecurityCouncil.sampleCouncilAction.pendingActionIds ∧
    0 ∉ SecurityCouncil.sampleCouncilCanceled.pendingActionIds ∧
    (SecurityCouncil.sampleCouncilCanceled.actions 0).executed = true ∧
    SecurityCouncil.approveEmergencyAction SecurityCouncil.sampleCouncilCanceled 3 0 =
      Except.error SecurityCouncil.Error.ActionAlreadyExecuted := by
  obtain ⟨s', hok, hnm, hex, hts2, hexec, happ, hexe2⟩ :=
    C9_cancel_terminal SecurityCouncil.sampleCouncilAction 2 3 1 0 5 6 true
      (by decide) (by decide) (by decide) (by decide) (by decide) (by decide) (by decide)
  have hsc : SecurityCouncil.sampleCouncilCanceled = s' := by
    unfold SecurityCouncil.sampleCouncilCanceled
    rw [hok]
  subst hsc
  exact ⟨hok, by decide, hnm, hex, happ⟩

/-- C8: `cancel` by the original proposer succeeds from every state except the
terminal `Executed` / `Canceled` / `Expired` (those fail with
`InvalidProposalState`, including `Defeated` which is cancellable); `cancel`
by the guardian succeeds exactly in `Pending` / `Active` / `Succeeded` /
`Queued` and fails with `InvalidProposalState` on `Defeated` or `Expired`;
any other caller fails with `NotAuthorizedToCancel`. -/
theorem C8_cancel_authority (proposer guardian caller : Nat)
    (st : DAOGovernor.ProposalState)
    (hgp : guardian ≠ proposer) (hcp : caller ≠ proposer) (hcg : caller ≠ guardian) :
    (DAOGovernor.cancel proposer guardian proposer st =
        DAOGovernor.CancelResult.success ↔
      (st ≠ DAOGovernor.ProposalState.Executed ∧
       st ≠ DAOGovernor.ProposalState.Canceled ∧
       st ≠ DAOGovernor.ProposalState.Expired)) ∧
    ((st = DAOGovernor.ProposalState.Executed ∨
      st = DAOGovernor.ProposalState.Canceled ∨
      st = DAOGovernor.ProposalState.Expired) →
      DAOGovernor.cancel proposer guardian proposer st =
        DAOGovernor.CancelResult.invalidProposalState) ∧
    (DAOGovernor.cancel proposer guardian guardian st =
        DAOGovernor.CancelResult.success ↔
      (st = DAOGovernor.ProposalState.Pending ∨
       st = DAOGovernor.ProposalState.Active ∨
       st = DAOGovernor.ProposalState.Succeeded ∨
       st = DAOGovernor.ProposalState.Queued)) ∧
    ((st = DAOGovernor.ProposalState.Defeated ∨
      st = DAOGovernor.ProposalState.Expired) →
      DAOGovernor.cancel proposer guardian guardian st =
        DAOGovernor.CancelResult.invalidProposalState) ∧
    DAOGovernor.cancel proposer guardian caller st =
      DAOGovernor.CancelResult.notAuthorizedToCancel := by
  refine ⟨?_, ?_, ?_, ?_, ?_⟩
  · cases st <;> simp [DAOGovernor.cancel]
  · cases st <;> simp [DAOGovernor.cancel]
  · cases st <;> simp [DAOGovernor.cancel, hgp]
  · cases st <;> simp [DAOGovernor.cancel, hgp]
  · simp [DAOGovernor.cancel, hcp, hcg]

/-- Witness for C8: on a Defeated proposal (proposer 1, guardian 2), the
proposer's cancel succeeds, the guardian's fails with `InvalidProposalState`,
and a third party's fails with `NotAuthorizedToCancel`. -/
theorem C8_cancel_authority_witness :
    DAOGovernor.cancel 1 2 1 DAOGovernor.ProposalState.Defeated =
      DAOGovernor.CancelResult.success ∧
    DAOGovernor.cancel 1 2 2 DAOGovernor.ProposalState.Defeated =
      DAOGovernor.CancelResult.invalidProposalState ∧
    DAOGovernor.cancel 1 2 3 DAOGovernor.ProposalState.Defeated =
      DAOGovernor.CancelResult.notAuthorizedToCancel := by
  refine ⟨?_, ?_, ?_⟩
  · exact (C8_cancel_authority 1 2 3 DAOGovernor.ProposalState.Defeated
      (by decide) (by decide) (by decide)).1.mpr (by decide)
  · exact (C8_cancel_authority 1 2 3 DAOGovernor.ProposalState.Defeated
      (by decide) (by decide) (by decide)).2.2.2.1 (Or.inl rfl)
  · exact (C8_cancel_authority 1 2 3 DAOGovernor.ProposalState.Defeated
      (by decide) (by decide) (by decide)).2.2.2.2

namespace DelegateRegistry

theorem upd2_same {α : Type} (f : Nat → Nat → α) (k1 k2 : Nat) (v : α) :
    upd2 f k1 k2 v k1 k2 = v := by
  simp [upd2, upd]

theorem upd2_ne1 {α : Type} (f : Nat → Nat → α) (k1 k2 k1' : Nat) (v : α) (h : k1' ≠ k1) :
    upd2 f k1 k2 v k1' = f k1' := by
  simp [upd2, upd, Function.update_noteq h]

theorem upd2_ne2 {α : Type} (f : Nat → Nat → α) (k1 k2 k2' : Nat) (v : α) (h : k2' ≠ k2) :
    upd2 f k1 k2 v k1 k2' = f k1 k2' := by
  simp [upd2, upd, Function.update_noteq h]

theorem tokenTransferFrom_ok_shape (s : State) (f t a : Nat) (s1 : State)
    (h : tokenTransferFrom s f t a = Except.ok s1) :
    a ≤ s.allowanceToRegistry f ∧ a ≤ s.balances f ∧
    s1 = { s with
             allowanceToRegistry :=
               upd s.allowanceToRegistry f (s.allowanceToRegistry f - a),
             balances :=
               upd (upd s.balances f (s.balances f - a)) t
                 (upd s.balances f (s.balances f - a) t + a) } := by
  unfold tokenTransferFrom at h
  split at h
  · exact absurd h (by simp)
  split at h
  · exact absurd h (by simp)
  rename_i h1 h2
  cases h
  exact ⟨by omega, by omega, rfl⟩

theorem tokenTransfer_ok_shape (s : State) (f t a : Nat) (s1 : State)
    (h : tokenTransfer s f t a = Except.ok s1) :
    a ≤ s.balances f ∧
    s1 = { s with
             balances :=
               upd (upd s.balances f (s.balances f - a)) t
                 (upd s.balances f (s.balances f - a) t + a) } := by
  unfold tokenTransfer at h
  split at h
  · exact absurd h (by simp)
  rename_i h1
  cases h
  exact ⟨by omega, rfl⟩

theorem execOp_capInvariant (s s' : State) (op : Op) (hinv : capInvariant s)
    (hmon : ∀ sender cap, op = Op.setCapOp sender cap → s.delegationCap ≤ cap)
    (h : execOp s op = Except.ok s') : capInvariant s' := by
  cases op with
  | registerOp sender profile votingPhilosophy interests now =>
    simp only [execOp] at h
    unfold registerDelegator at h
    split at h
    · exact absurd h (by simp)
    split at h
    · exact absurd h (by simp)
    cases h
    exact hinv
  | updateOp sender profile votingPhilosophy interests =>
    simp only [execOp] at h
    unfold updateDelegator at h
    split at h
    · exact absurd h (by simp)
    split at h
    · exact absurd h (by simp)
    cases h
    exact hinv
  | deactivateOp sender =>
    simp only [execOp] at h
    unfold deactivateDelegator at h
    split at h
    · exact absurd h (by simp)
    cases h
    exact hinv
  | delegateOp sender delegator amount now blockNum =>
    simp only [execOp] at h
    unfold delegate at h
    split at h
    · exact absurd h (by simp)
    split at h
    · exact absurd h (by simp)
    split at h
    · exact absurd h (by simp)
    split at h
    · exact absurd h (by simp)
    split at h
    · exact absurd h (by simp)
    rename_i hcap
    split at h
    · exact absurd h (by simp)
    rename_i s1 heq
    cases h
    obtain ⟨hallow, hbal, rfl⟩ :=
      tokenTransferFrom_ok_shape s sender s.registryAddr amount s1 heq
    intro d
    show upd s.totalDelegated delegator (s.totalDelegated delegator + amount) d ≤
      s.totalSupply * s.delegationCap / MAX_CAP
    by_cases hd : d = delegator
    · subst hd
      rw [upd_same]
      exact Nat.le_of_not_lt hcap
    · rw [upd_other _ _ _ _ hd]
      exact hinv d
  | undelegateOp sender delegator amount blockNum =>
    simp only [execOp] at h
    unfold undelegate at h
    split at h
    · exact absurd h (by simp)
    split at h
    · exact absurd h (by simp)
    split at h
    · exact absurd h (by simp)
    split at h
    · exact absurd h (by simp)
    split at h
    · exact absurd h (by simp)
    obtain ⟨hbal, rfl⟩ := tokenTransfer_ok_shape _ s.registryAddr sender amount s' h
    intro d
    show upd s.totalDelegated delegator (s.totalDelegated delegator - amount) d ≤
      s.totalSupply * s.delegationCap / MAX_CAP
    by_cases hd : d = delegator
    · subst hd
      rw [upd_same]
      exact le_trans (Nat.sub_le _ _) (hinv d)
    · rw [upd_other _ _ _ _ hd]
      exact hinv d
  | redelegateOp sender fromDelegator toDelegator amount now blockNum =>
    simp only [execOp] at h
    unfold redelegate at h
    split at h
    · exact absurd h (by simp)
    split at h
    · exact absurd h (by simp)
    split at h
    · exact absurd h (by simp)
    split at h
    · exact absurd h (by simp)
    split at h
    · exact absurd h (by simp)
    rename_i hins
    split at h
    · exact absurd h (by simp)
    rename_i hcap
    split at h
    · exact absurd h (by simp)
    rename_i hund
    cases h
    intro d
    show upd (upd s.totalDelegated fromDelegator (s.totalDelegated fromDelegator - amount))
        toDelegator
        (upd s.totalDelegated fromDelegator (s.totalDelegated fromDelegator - amount)
          toDelegator + amount) d ≤
      s.totalSupply * s.delegationCap / MAX_CAP
    by_cases hdt : d = toDelegator
    · subst hdt
      rw [upd_same]
      by_cases hdf : d = fromDelegator
      · subst hdf
        rw [upd_same, Nat.sub_add_cancel (Nat.le_of_not_lt hund)]
        exact hinv d
      · rw [upd_other _ _ _ _ hdf]
        exact Nat.le_of_not_lt hcap
    · rw [upd_other _ _ _ _ hdt]
      by_cases hdf : d = fromDelegator
      · subst hdf
        rw [upd_same]
        exact le_trans (Nat.sub_le _ _) (hinv d)
      · rw [upd_other _ _ _ _ hdf]
        exact hinv d
  | setCapOp sender cap =>
    simp only [execOp] at h
    unfold setDelegationCap at h
    split at h
    · exact absurd h (by simp)
    split at h
    · exact absurd h (by simp)
    cases h
    intro d
    show s.totalDelegated d ≤ s.totalSupply * cap / MAX_CAP
    exact le_trans (hinv d)
      (Nat.div_le_div_right (Nat.mul_le_mul_left _ (hmon sender cap rfl)))
  | setPeriodOp sender period =>
    simp only [execOp] at h
    unfold setDelegationPeriodRequirement at h
    split at h
    · exact absurd h (by simp)
    cases h
    exact hinv
  | setExpiryOp sender period =>
    simp only [execOp] at h
    unfold setAutoExpiryPeriod at h
    split at h
    · exact absurd h (by simp)
    cases h
    exact hinv

theorem sum_amount_split (f : Nat → DelegationInfo) (d : Nat) (ds : Finset Nat)
    (hd : d ∈ ds) :
    ∑ x ∈ ds, (f x).amount = (f d).amount + ∑ x ∈ ds.erase d, (f x).amount :=
  (Finset.add_sum_erase ds (fun x => (f x).amount) hd).symm

theorem sum_amount_congr (f g : Nat → DelegationInfo) (t : Finset Nat)
    (hfg : ∀ x ∈ t, (f x).amount = (g x).amount) :
    ∑ x ∈ t, (f x).amount = ∑ x ∈ t, (g x).amount :=
  Finset.sum_congr rfl hfg

theorem applyUndelegationSide_amount_same (s : State) (sender delegator amount : Nat) :
    ((applyUndelegationSide s sender delegator amount).delegations sender delegator).amount =
      (s.delegations sender delegator).amount - amount := by
  unfold applyUndelegationSide
  by_cases hrem : (s.delegations sender delegator).amount - amount = 0
  · simp [hrem, upd2_same, DelegationInfo.empty]
  · simp [hrem, upd2_same]

theorem applyUndelegationSide_delegations_ne (s : State) (sender delegator amount x : Nat)
    (hx : x ≠ delegator) :
    (applyUndelegationSide s sender delegator amount).delegations sender x =
      s.delegations sender x := by
  unfold applyUndelegationSide
  by_cases hrem : (s.delegations sender delegator).amount - amount = 0
  · simp [hrem, upd2_ne2 _ _ _ _ _ hx]
  · simp [hrem, upd2_ne2 _ _ _ _ _ hx]

theorem applyDelegationSide_amount_same (s : State) (sender delegator amount now : Nat) :
    ((applyDelegationSide s sender delegator amount now).delegations sender delegator).amount =
      (s.delegations sender delegator).amount + amount := by
  unfold applyDelegationSide
  simp [upd2_same]

theorem applyDelegationSide_delegations_ne (s : State) (sender delegator amount now x : Nat)
    (hx : x ≠ delegator) :
    (applyDelegationSide s sender delegator amount now).delegations sender x =
      s.delegations sender x := by
  unfold applyDelegationSide
  simp [upd2_ne2 _ _ _ _ _ hx]

theorem Reachable_runOps (s : State) (ops : List Op) (s' : State)
    (hs : Reachable s) (h : runOps s ops = Except.ok s') : Reachable s' := by
  induction ops generalizing s with
  | nil =>
    cases h
    exact hs
  | cons op rest ih =>
    simp only [runOps] at h
    split at h
    · rename_i s1 heq
      exact ih s1 (Reachable.step s s1 op hs heq) h
    · exact absurd h (by simp)

theorem delegate_conserves (s s' : State) (o delegator amount now blockNum : Nat)
    (ds : Finset Nat) (hreg : o ≠ s.registryAddr) (hd : delegator ∈ ds)
    (h : delegate s o delegator amount now blockNum = Except.ok s') :
    ownerHoldings s' o ds = ownerHoldings s o ds ∧ s'.registryAddr = s.registryAddr := by
  unfold delegate at h
  split at h
  · exact absurd h (by simp)
  split at h
  · exact absurd h (by simp)
  split at h
  · exact absurd h (by simp)
  split at h
  · exact absurd h (by simp)
  split at h
  · exact absurd h (by simp)
  split at h
  · exact absurd h (by simp)
  rename_i s1 heq
  cases h
  obtain ⟨hallow, hbal, rfl⟩ := tokenTransferFrom_ok_shape s o s.registryAddr amount s1 heq
  refine ⟨?_, rfl⟩
  unfold ownerHoldings
  show upd (upd s.balances o (s.balances o - amount)) s.registryAddr
      (upd s.balances o (s.balances o - amount) s.registryAddr + amount) o +
      (∑ x ∈ ds, ((upd2 s.delegations o delegator
        { delegator := delegator,
          amount := (s.delegations o delegator).amount + amount,
          delegatedAt := now,
          expiresAt :=
            if s.autoExpiryPeriod > 0 then now + s.autoExpiryPeriod
            else (s.delegations o delegator).expiresAt }) o x).amount) =
    s.balances o + ∑ x ∈ ds, (s.delegations o x).amount
  rw [upd_other _ _ _ _ hreg, upd_same]
  rw [sum_amount_split (fun x => (upd2 s.delegations o delegator
    { delegator := delegator,
      amount := (s.delegations o delegator).amount + amount,
      delegatedAt := now,
      expiresAt :=
        if s.autoExpiryPeriod > 0 then now + s.autoExpiryPeriod
        else (s.delegations o delegator).expiresAt }) o x) delegator ds hd]
  rw [sum_amount_split (fun x => s.delegations o x) delegator ds hd]
  rw [Finset.sum_congr rfl (fun x hx => by
    rw [upd2_ne2 _ _ _ _ _ (Finset.ne_of_mem_erase hx)])]
  rw [upd2_same]
  dsimp only
  omega

theorem undelegate_conserves (s s' : State) (o delegator amount blockNum : Nat)
    (ds : Finset Nat) (hreg : o ≠ s.registryAddr) (hd : delegator ∈ ds)
    (h : undelegate s o delegator amount blockNum = Except.ok s') :
    ownerHoldings s' o ds = ownerHoldings s o ds ∧ s'.registryAddr = s.registryAddr := by
  unfold undelegate at h
  split at h
  · exact absurd h (by simp)
  split at h
  · exact absurd h (by simp)
  split at h
  · exact absurd h (by simp)
  rename_i hins
  split at h
  · exact absurd h (by simp)
  split at h
  · exact absurd h (by simp)
  obtain ⟨hbal2, rfl⟩ := tokenTransfer_ok_shape _ s.registryAddr o amount s' h
  refine ⟨?_, rfl⟩
  unfold ownerHoldings
  show upd (upd s.balances s.registryAddr (s.balances s.registryAddr - amount)) o
      (upd s.balances s.registryAddr (s.balances s.registryAddr - amount) o + amount) o +
      (∑ x ∈ ds, ((applyUndelegationSide s o delegator amount).delegations o x).amount) =
    s.balances o + ∑ x ∈ ds, (s.delegations o x).amount
  rw [upd_same, upd_other _ _ _ _ hreg]
  rw [sum_amount_split
    (fun x => (applyUndelegationSide s o delegator amount).delegations o x) delegator ds hd]
  rw [sum_amount_split (fun x => s.delegations o x) delegator ds hd]
  rw [Finset.sum_congr rfl (fun x hx => by
    rw [applyUndelegationSide_delegations_ne _ _ _ _ _ (Finset.ne_of_mem_erase hx)])]
  rw [applyUndelegationSide_amount_same]
  omega

theorem redelegate_conserves (s s' : State)
    (o fromDelegator toDelegator amount now blockNum : Nat) (ds : Finset Nat)
    (hfrom : fromDelegator ∈ ds) (hto : toDelegator ∈ ds)
    (h : redelegate s o fromDelegator toDelegator amount now blockNum = Except.ok s') :
    ownerHoldings s' o ds = ownerHoldings s o ds ∧ s'.registryAddr = s.registryAddr := by
  unfold redelegate at h
  split at h
  · exact absurd h (by simp)
  split at h
  · exact absurd h (by simp)
  split at h
  · exact absurd h (by simp)
  split at h
  · exact absurd h (by simp)
  split at h
  · exact absurd h (by simp)
  rename_i hins
  split at h
  · exact absurd h (by simp)
  split at h
  · exact absurd h (by simp)
  cases h
  refine ⟨?_, rfl⟩
  unfold ownerHoldings
  show s.balances o +
      (∑ x ∈ ds, ((applyDelegationSide (applyUndelegationSide s o fromDelegator amount)
        o toDelegator amount now).delegations o x).amount) =
    s.balances o + ∑ x ∈ ds, (s.delegations o x).amount
  rw [sum_amount_split
    (fun x => (applyDelegationSide (applyUndelegationSide s o fromDelegator amount)
      o toDelegator amount now).delegations o x) toDelegator ds hto]
  rw [applyDelegationSide_amount_same]
  rw [Finset.sum_congr rfl (fun x hx => by
    rw [applyDelegationSide_delegations_ne _ _ _ _ _ _ (Finset.ne_of_mem_erase hx)])]
  by_cases hft : fromDelegator = toDelegator
  · subst hft
    rw [applyUndelegationSide_amount_same]
    rw [Finset.sum_congr rfl (fun x hx => by
      rw [applyUndelegationSide_delegations_ne _ _ _ _ _ (Finset.ne_of_mem_erase hx)])]
    rw [sum_amount_split (fun x => s.delegations o x) fromDelegator ds hfrom]
    omega
  · rw [applyUndelegationSide_delegations_ne _ _ _ _ _ (Ne.symm hft)]
    rw [sum_amount_split
      (fun x => (applyUndelegationSide s o fromDelegator amount).delegations o x)
      fromDelegator (ds.erase toDelegator) (Finset.mem_erase.mpr ⟨hft, hfrom⟩)]
    rw [applyUndelegationSide_amount_same]
    rw [Finset.sum_congr rfl (fun x hx => by
      rw [applyUndelegationSide_delegations_ne _ _ _ _ _ (Finset.ne_of_mem_erase hx)])]
    rw [sum_amount_split (fun x => s.delegations o x) toDelegator ds hto]
    rw [sum_amount_split (fun x => s.delegations o x) fromDelegator (ds.erase toDelegator)
      (Finset.mem_erase.mpr ⟨hft, hfrom⟩)]
    omega

theorem execOp_conserves (s s' : State) (op : Op) (o : Nat) (ds : Finset Nat)
    (hreg : o ≠ s.registryAddr) (hmove : Op.isOwnerMove op o)
    (hcov : ∀ d ∈ Op.touchedDelegators op, d ∈ ds)
    (h : execOp s op = Except.ok s') :
    ownerHoldings s' o ds = ownerHoldings s o ds ∧ s'.registryAddr = s.registryAddr := by
  cases op with
  | delegateOp sender delegator amount now blockNum =>
    obtain rfl : sender = o := hmove
    exact delegate_conserves s s' sender delegator amount now blockNum ds hreg
      (hcov delegator (by simp [Op.touchedDelegators])) h
  | undelegateOp sender delegator amount blockNum =>
    obtain rfl : sender = o := hmove
    exact undelegate_conserves s s' sender delegator amount blockNum ds hreg
      (hcov delegator (by simp [Op.touchedDelegators])) h
  | redelegateOp sender fromDelegator toDelegator amount now blockNum =>
    obtain rfl : sender = o := hmove
    exact redelegate_conserves s s' sender fromDelegator toDelegator amount now blockNum ds
      (hcov fromDelegator (by simp [Op.touchedDelegators]))
      (hcov toDelegator (by simp [Op.touchedDelegators])) h
  | registerOp sender profile votingPhilosophy interests now => exact False.elim hmove
  | updateOp sender profile votingPhilosophy interests => exact False.elim hmove
  | deactivateOp sender => exact False.elim hmove
  | setCapOp sender cap => exact False.elim hmove
  | setPeriodOp sender period => exact False.elim hmove
  | setExpiryOp sender period => exact False.elim hmove

theorem runOps_conserves (o : Nat) (ds : Finset Nat) (ops : List Op) :
    ∀ s s', o ≠ s.registryAddr →
      (∀ op ∈ ops, Op.isOwnerMove op o) →
      (∀ op ∈ ops, ∀ d ∈ Op.touchedDelegators op, d ∈ ds) →
      runOps s ops = Except.ok s' →
      ownerHoldings s' o ds = ownerHoldings s o ds := by
  induction ops with
  | nil =>
    intro s s' _ _ _ h
    cases h
    rfl
  | cons op rest ih =>
    intro s s' hreg hmoves hcov h
    simp only [runOps] at h
    split at h
    · rename_i s1 heq
      obtain ⟨hcons, hregaddr⟩ := execOp_conserves s s1 op o ds hreg
        (hmoves op (List.mem_cons_self op rest)) (hcov op (List.mem_cons_self op rest)) heq
      refine (ih s1 s' ?_ ?_ ?_ h).trans hcons
      · rw [hregaddr]
        exact hreg
      · intro op2 hop2
        exact hmoves op2 (List.mem_cons_of_mem _ hop2)
      · intro op2 hop2
        exact hcov op2 (List.mem_cons_of_mem _ hop2)
    · exact absurd h (by simp)

end DelegateRegistry

/-- C1 counterexample: the claimed invariant is reachable-state false once
`setDelegationCap` lowers the cap below existing delegations.  Register
delegator 3, delegate 4000 of the 20000 supply (exactly the default 20% cap),
then the owner lowers the cap to 10%: the state is reachable, yet 4000 > 2000
= `totalSupply * delegationCap / 10000`. -/
theorem C1_delegation_cap_counterexample :
    DelegateRegistry.Reachable DelegateRegistry.c1State ∧
    ¬(DelegateRegistry.c1State.totalDelegated 3 ≤
        DelegateRegistry.c1State.totalSupply * DelegateRegistry.c1State.delegationCap /
          DelegateRegistry.MAX_CAP) := by
  constructor
  · exact DelegateRegistry.Reachable_runOps DelegateRegistry.c1Init DelegateRegistry.c1Ops
      DelegateRegistry.c1State
      (DelegateRegistry.Reachable.init 1 100 (upd (fun _ => 0) 2 20000) 20000
        (fun _ => 1000000))
      rfl
  · decide

open DelegateRegistry in
/-- C1 (amended): in every state reachable from deployment through
delegate / undelegate / redelegate, the registration calls, and admin setters
whose `setDelegationCap` calls never lower the cap, every delegator's total
stays at most `totalSupply * delegationCap / 10000`; and any `delegate` call
that passes the earlier checks but would push the target's total past this
bound reverts with `DelegationCapExceeded` (an `Except.error`, so no registry
or token state changes).  (The unamended claim also admits cap-lowering
`setDelegationCap` calls, which break the bound —
see `C1_delegation_cap_counterexample`.) -/
theorem C1_delegation_cap :
    (∀ s, DelegateRegistry.ReachableMonotoneCap s → DelegateRegistry.capInvariant s) ∧
    (∀ (s : DelegateRegistry.State) (sender delegator amount now blockNum : Nat),
      delegator ≠ 0 → amount ≠ 0 → delegator ≠ sender →
      (s.delegators delegator).registeredAt ≠ 0 →
      (s.delegators delegator).isActive = true →
      s.totalDelegated delegator + amount >
        s.totalSupply * s.delegationCap / DelegateRegistry.MAX_CAP →
      DelegateRegistry.delegate s sender delegator amount now blockNum =
        Except.error DelegateRegistry.Error.DelegationCapExceeded) := by
  constructor
  · intro s hs
    induction hs with
    | init owner registryAddr balances totalSupply allowanceToRegistry =>
      intro d
      exact Nat.zero_le _
    | step s s' op hs hok hmon ih =>
      exact DelegateRegistry.execOp_capInvariant s s' op ih hmon hok
  · intro s sender delegator amount now blockNum h0 ha hss hreg hact hover
    unfold DelegateRegistry.delegate
    rw [if_neg h0, if_neg ha, if_neg hss, if_neg (by simp [hreg, hact]), if_pos hover]

/-- Witness for C1: after registering delegator 3 and delegating 4000 (the
full 20% of the 20000 supply, no cap change), the bound holds with equality,
and a further `delegate` of 500 reverts with `DelegationCapExceeded`. -/
theorem C1_delegation_cap_witness :
    (DelegateRegistry.c1StateMonotone.totalDelegated 3 ≤
      DelegateRegistry.c1StateMonotone.totalSupply *
        DelegateRegistry.c1StateMonotone.delegationCap / DelegateRegistry.MAX_CAP) ∧
    DelegateRegistry.delegate DelegateRegistry.c1StateMonotone 2 3 500 9 9 =
      Except.error DelegateRegistry.Error.DelegationCapExceeded := by
  constructor
  · refine C1_delegation_cap.1 DelegateRegistry.c1StateMonotone ?_ 3
    refine DelegateRegistry.ReachableMonotoneCap.step DelegateRegistry.c1Mid
      DelegateRegistry.c1StateMonotone (DelegateRegistry.Op.delegateOp 2 3 4000 1 1)
      ?_ rfl ?_
    · refine DelegateRegistry.ReachableMonotoneCap.step DelegateRegistry.c1Init
        DelegateRegistry.c1Mid
        (DelegateRegistry.Op.registerOp 3 DelegateRegistry.sampleProfile
          DelegateRegistry.samplePhilosophy DelegateRegistry.sampleInterests 1)
        (DelegateRegistry.ReachableMonotoneCap.init 1 100 (upd (fun _ => 0) 2 20000) 20000
          (fun _ => 1000000))
        rfl ?_
      intro sender cap hopc
      cases hopc
    · intro sender cap hopc
      cases hopc
  · exact C1_delegation_cap.2 DelegateRegistry.c1StateMonotone 2 3 500 9 9
      (by decide) (by decide) (by decide) (by decide) (by decide) (by decide)

open DelegateRegistry in
/-- C2: for every owner `O` (other than the registry contract itself,
which never calls `delegate`), `O`'s token balance plus the sum of `O`'s
individual delegation record amounts — over any delegator set containing the
delegators the call touches — is unchanged by every successful `delegate`,
`undelegate`, and `redelegate` call made by `O`, and hence invariant across
any sequence of such calls. -/
theorem C2_owner_conservation (o : Nat) (ds : Finset Nat) :
    (∀ (s s' : DelegateRegistry.State) (delegator amount now blockNum : Nat),
      o ≠ s.registryAddr → delegator ∈ ds →
      DelegateRegistry.delegate s o delegator amount now blockNum = Except.ok s' →
      DelegateRegistry.ownerHoldings s' o ds = DelegateRegistry.ownerHoldings s o ds) ∧
    (∀ (s s' : DelegateRegistry.State) (delegator amount blockNum : Nat),
      o ≠ s.registryAddr → delegator ∈ ds →
      DelegateRegistry.undelegate s o delegator amount blockNum = Except.ok s' →
      DelegateRegistry.ownerHoldings s' o ds = DelegateRegistry.ownerHoldings s o ds) ∧
    (∀ (s s' : DelegateRegistry.State) (fromDelegator toDelegator amount now blockNum : Nat),
      fromDelegator ∈ ds → toDelegator ∈ ds →
      DelegateRegistry.redelegate s o fromDelegator toDelegator amount now blockNum =
        Except.ok s' →
      DelegateRegistry.ownerHoldings s' o ds = DelegateRegistry.ownerHoldings s o ds) ∧
    (∀ (s s' : DelegateRegistry.State) (ops : List DelegateRegistry.Op),
      o ≠ s.registryAddr →
      (∀ op ∈ ops, DelegateRegistry.Op.isOwnerMove op o) →
      (∀ op ∈ ops, ∀ d ∈ DelegateRegistry.Op.touchedDelegators op, d ∈ ds) →
      DelegateRegistry.runOps s ops = Except.ok s' →
      DelegateRegistry.ownerHoldings s' o ds = DelegateRegistry.ownerHoldings s o ds) := by
  refine ⟨?_, ?_, ?_, ?_⟩
  · intro s s' delegator amount now blockNum hreg hd h
    exact (DelegateRegistry.delegate_conserves s s' o delegator amount now blockNum ds
      hreg hd h).1
  · intro s s' delegator amount blockNum hreg hd h
    exact (DelegateRegistry.undelegate_conserves s s' o delegator amount blockNum ds
      hreg hd h).1
  · intro s s' fromDelegator toDelegator amount now blockNum hfrom hto h
    exact (DelegateRegistry.redelegate_conserves s s' o fromDelegator toDelegator amount
      now blockNum ds hfrom hto h).1
  · intro s s' ops hreg hmoves hcov h
    exact DelegateRegistry.runOps_conserves o ds ops s s' hreg hmoves hcov h

/-- Witness for C2: owner 2 delegates 1000 to delegator 3 and undelegates
400; the run succeeds and owner 2's balance-plus-delegations over the
delegator set `{3}` is unchanged. -/
theorem C2_owner_conservation_witness :
    DelegateRegistry.runOps DelegateRegistry.c1Mid DelegateRegistry.c2Ops =
      Except.ok DelegateRegistry.c2State ∧
    DelegateRegistry.ownerHoldings DelegateRegistry.c2State 2 {3} =
      DelegateRegistry.ownerHoldings DelegateRegistry.c1Mid 2 {3} := by
  refine ⟨rfl, ?_⟩
  refine (C2_owner_conservation 2 {3}).2.2.2 DelegateRegistry.c1Mid DelegateRegistry.c2State
    DelegateRegistry.c2Ops (by decide) ?_ ?_ rfl
  · intro op hop
    simp only [DelegateRegistry.c2Ops, List.mem_cons, List.not_mem_nil, or_false] at hop
    rcases hop with rfl | rfl
    · exact rfl
    · exact rfl
  · intro op hop d hd
    simp only [DelegateRegistry.c2Ops, List.mem_cons, List.not_mem_nil, or_false] at hop
    rcases hop with rfl | rfl
    · simp only [DelegateRegistry.Op.touchedDelegators, List.mem_cons,
        List.not_mem_nil, or_false] at hd
      simp [hd]
    · simp only [DelegateRegistry.Op.touchedDelegators, List.mem_cons,
        List.not_mem_nil, or_false] at hd
      simp [hd]

/-- C4: the registry-level `delegate` operation DOES impose a self-delegation
restriction: a registered, active delegator calling `delegate` on itself with
a nonzero amount, ample balance, allowance, and cap headroom reverts with
`SelfDelegationNotAllowed` (line 172 of `DelegateRegistry.sol`), contradicting
the repository's own `test_SelfDelegationAllowed` and the spec. -/
theorem C4_self_delegation_reverts :
    DelegateRegistry.delegate DelegateRegistry.c4State 2 2 1000 5 5 =
      Except.error DelegateRegistry.Error.SelfDelegationNotAllowed ∧
    (DelegateRegistry.c4State.delegators 2).registeredAt ≠ 0 ∧
    (DelegateRegistry.c4State.delegators 2).isActive = true ∧
    1000 ≤ DelegateRegistry.c4State.balances 2 ∧
    1000 ≤ DelegateRegistry.c4State.allowanceToRegistry 2 ∧
    DelegateRegistry.c4State.totalDelegated 2 + 1000 ≤
      DelegateRegistry.c4State.totalSupply * DelegateRegistry.c4State.delegationCap /
        DelegateRegistry.MAX_CAP := by
  refine ⟨rfl, by decide, by decide, by decide, by decide, by decide⟩

open DelegateRegistry in
/-- C10: `getVotingPower` computes `now - delegationPeriodRequirement` with no
guard, so it reverts on arithmetic underflow (modelled as `none`) exactly when
`delegationPeriodRequirement > now`; under `delegationPeriodRequirement ≤ now`
it is total and returns a value for every delegator; and
`setDelegationPeriodRequirement` accepts any value (no upper bound) from the
owner. -/
theorem C10_voting_power_totality (s : DelegateRegistry.State)
    (d now period sender : Nat) (hsender : sender = s.owner) :
    (s.delegationPeriodRequirement > now →
      DelegateRegistry.getVotingPower s d now = none) ∧
    (s.delegationPeriodRequirement ≤ now →
      ∃ v, DelegateRegistry.getVotingPower s d now = some v) ∧
    (∃ s', DelegateRegistry.setDelegationPeriodRequirement s sender period =
        Except.ok s' ∧ s'.delegationPeriodRequirement = period) := by
  refine ⟨?_, ?_, ?_⟩
  · intro hgt
    unfold DelegateRegistry.getVotingPower
    rw [if_pos hgt]
  · intro hle
    exact ⟨(s.delegatorsToOwners d).foldl
      (fun acc owner => acc + DelegateRegistry.votingPowerContribution s d owner now) 0,
      by unfold DelegateRegistry.getVotingPower; rw [if_neg (by omega)]⟩
  · refine ⟨{ s with delegationPeriodRequirement := period }, ?_, rfl⟩
    unfold DelegateRegistry.setDelegationPeriodRequirement
    rw [if_neg (by simp [hsender])]

/-- Witness for C10: the freshly deployed registry (7-day period) reverts any
`getVotingPower` query at time 5, answers at time 604800, and the owner can
set the period to an arbitrary value. -/
theorem C10_voting_power_totality_witness :
    DelegateRegistry.getVotingPower DelegateRegistry.c1Init 3 5 = none ∧
    (DelegateRegistry.getVotingPower DelegateRegistry.c1Init 3 604800).isSome = true ∧
    (DelegateRegistry.setDelegationPeriodRequirement DelegateRegistry.c1Init 1
      123456789).isOk = true := by
  refine ⟨?_, ?_, ?_⟩
  · exact (C10_voting_power_totality DelegateRegistry.c1Init 3 5 0 1 rfl).1 (by decide)
  · obtain ⟨v, hv⟩ :=
      (C10_voting_power_totality DelegateRegistry.c1Init 3 604800 0 1 rfl).2.1 (by decide)
    rw [hv]
    rfl
  · obtain ⟨s', hs', hp⟩ :=
      (C10_voting_power_totality DelegateRegistry.c1Init 3 5 123456789 1 rfl).2.2
    rw [hs']
    rfl

open DelegateRegistry in
/-- C3: for a delegation of owner `o` to delegator `d` whose recorded
timestamp (reset to the call time by every `delegate` top-up, final conjunct)
is `T > 0`, and any query time `now ≥ delegationPeriodRequirement` (so the
query does not revert): `getVotingPower` is the sum of the per-owner
contributions, and `o`'s contribution is 0 strictly before
`T + delegationPeriodRequirement`, and is the full recorded amount at or after
that time whenever the delegation is unexpired and nonzero. -/
theorem C3_voting_power_maturity (s : DelegateRegistry.State) (d o T now : Nat)
    (hT : s.delegationTimestamps d o = T) (hTpos : 0 < T)
    (hper : s.delegationPeriodRequirement ≤ now) :
    (DelegateRegistry.getVotingPower s d now =
      some ((s.delegatorsToOwners d).foldl
        (fun acc owner => acc + DelegateRegistry.votingPowerContribution s d owner now) 0)) ∧
    (now < T + s.delegationPeriodRequirement →
      DelegateRegistry.votingPowerContribution s d o now = 0) ∧
    (T + s.delegationPeriodRequirement ≤ now →
      ((s.delegations o d).expiresAt = 0 ∨ (s.delegations o d).expiresAt > now) →
      (s.delegations o d).amount ≠ 0 →
      DelegateRegistry.votingPowerContribution s d o now = (s.delegations o d).amount) ∧
    (∀ s' amount blockNum,
      DelegateRegistry.delegate s o d amount T blockNum = Except.ok s' →
      s'.delegationTimestamps d o = T) := by
  refine ⟨?_, ?_, ?_, ?_⟩
  · unfold DelegateRegistry.getVotingPower
    rw [if_neg (by omega)]
  · intro hlt
    unfold DelegateRegistry.votingPowerContribution
    rw [hT, if_neg (by omega)]
  · intro hge hexp hamt
    unfold DelegateRegistry.votingPowerContribution
    rw [hT, if_pos ⟨hTpos, by omega⟩, if_pos (Nat.pos_of_ne_zero hamt), if_pos hexp]
  · intro s' amount blockNum h
    unfold DelegateRegistry.delegate at h
    split at h
    · exact absurd h (by simp)
    split at h
    · exact absurd h (by simp)
    split at h
    · exact absurd h (by simp)
    split at h
    · exact absurd h (by simp)
    split at h
    · exact absurd h (by simp)
    split at h
    · exact absurd h (by simp)
    rename_i s1 heq
    cases h
    exact upd2_same _ _ _ _

/-- Witness for C3: after user 2 delegates 4000 to delegator 3 at time 1 with
a 7-day (604800 s) period, the contribution is 0 at time 604800 (one second
too early) and 4000 at time 604801. -/
theorem C3_voting_power_maturity_witness :
    DelegateRegistry.votingPowerContribution DelegateRegistry.c1StateMonotone 3 2 604800 = 0 ∧
    DelegateRegistry.votingPowerContribution DelegateRegistry.c1StateMonotone 3 2 604801 =
      4000 := by
  constructor
  · exact (C3_voting_power_maturity DelegateRegistry.c1StateMonotone 3 2 1 604800
      (by decide) (by decide) (by decide)).2.1 (by decide)
  · have h3 := (C3_voting_power_maturity DelegateRegistry.c1StateMonotone 3 2 1 604801
      (by decide) (by decide) (by decide)).2.2.1 (by decide) (Or.inl (by decide)) (by decide)
    rw [h3]
    decide

end TokamakDAO
